import Mathlib

/-!
Shallow embedding of the Resume Analyzer core pipeline
(`src/resume_analyzer`: content_analyzer, skills_analyzer,
experience_analyzer, scoring, ats_analyzer, text_utils, models/resume)
together with theorems settling the specification claims.

Modelling conventions:
* Python `str` is modelled by `String`; helpers work on `List Char`
  (`String.data`).  The analyzed inputs are ASCII, and `str.lower` /
  `str.isupper` are modelled at ASCII granularity.
* Python `float` is modelled by `ℚ` (exact arithmetic).
* Python regular expressions are transliterated into explicit scanners.
  Each scanner carries a comment quoting the original pattern; greedy
  sub-patterns whose follow-set is disjoint from the repeated class are
  implemented by maximal munch, which coincides with the backtracking
  semantics for those patterns.
* `datetime.now()` is passed explicitly as a `(year, month)` parameter.
-/

namespace ResumeAnalyzer

/-- Python `str.strip` whitespace set (space, tab, LF, CR, VT, FF). -/
def pyWS (c : Char) : Bool :=
  c = ' ' || c = '\t' || c = '\n' || c = '\r' || c = '\x0b' || c = '\x0c'

/-- ASCII lower-casing of one character (model of `str.lower` per char). -/
def lowerChar (c : Char) : Char :=
  if 'A' ≤ c ∧ c ≤ 'Z' then Char.ofNat (c.toNat + 32) else c

/-- ASCII model of `str.lower`. -/
def lowerStr (s : List Char) : List Char := s.map lowerChar

/-- ASCII model of `str.lower` on `String`. -/
def pyLower (s : String) : String := ⟨lowerStr s.data⟩

/-- Code-point lexicographic `<=` on character lists (Python string
comparison). -/
def lexLe : List Char → List Char → Bool
  | [], _ => true
  | _ :: _, [] => false
  | a :: as, b :: bs => if a < b then true else if a = b then lexLe as bs else false

/-- Python `<=` on strings, as an executable decision procedure for the
lexicographic string order (used by `sorted`). -/
def strLe (a b : String) : Bool := lexLe a.data b.data

/-- `strLe` decides the string order (`String.decidableLE` is opaque to
kernel evaluation, so sorting uses this equivalent instance instead). -/
def strLeDecidable : DecidableRel ((· ≤ ·) : String → String → Prop) := fun a b =>
  decidable_of_iff (strLe a b = true) (by
    show strLe a b = true ↔ a ≤ b
    rw [String.le_iff_toList_le]
    show lexLe a.data b.data = true ↔ a.data ≤ b.data
    generalize a.data = x
    generalize b.data = y
    rw [← not_lt]
    induction x generalizing y with
    | nil =>
      refine iff_of_true rfl (fun hlt => ?_)
      cases hlt
    | cons c cs ih =>
      cases y with
      | nil =>
        refine iff_of_false (by simp [lexLe]) (fun h => h List.Lex.nil)
      | cons d ds =>
        by_cases h1 : c < d
        · refine iff_of_true (by simp [lexLe, h1]) (fun hlt => ?_)
          cases hlt with
          | cons h => exact lt_irrefl c h1
          | rel h => exact lt_asymm h1 h
        · by_cases h2 : c = d
          · subst h2
            have hx : lexLe (c :: cs) (c :: ds) = lexLe cs ds := by
              simp [lexLe, lt_irrefl]
            rw [hx, ih ds]
            constructor
            · intro hnd hlex
              cases hlex with
              | cons h => exact hnd h
              | rel hr => exact lt_irrefl c hr
            · intro hnl hds
              exact hnl (List.Lex.cons hds)
          · have h3 : d < c := (lt_or_gt_of_ne h2).resolve_left h1
            refine iff_of_false (by simp [lexLe, h1, h2]) (fun h => h (List.Lex.rel h3)))

/-- ASCII uppercase test for one character (model of `ch.isupper()`). -/
def isUpperChar (c : Char) : Bool := decide ('A' ≤ c) && decide (c ≤ 'Z')

/-- ASCII letter test (the cased characters of the analyzed inputs). -/
def isAsciiAlpha (c : Char) : Bool := c.isAlpha

/-- ASCII model of `str.isupper()`: at least one cased character and no
lowercase cased character. -/
def pyIsUpper (s : String) : Bool :=
  s.data.any isAsciiAlpha && s.data.all (fun c => !(isAsciiAlpha c) || isUpperChar c)

/-- Word character for the regex `\b` and `\w` classes: `[A-Za-z0-9_]`. -/
def isWordChar (c : Char) : Bool := c.isAlphanum || c = '_'

/-- Strip `pyWS` characters from both ends (model of `str.strip()`). -/
def stripL (s : List Char) : List Char :=
  (((s.dropWhile pyWS).reverse).dropWhile pyWS).reverse

/-- Model of `str.strip()` on `String`. -/
def pyStrip (s : String) : String := ⟨stripL s.data⟩

/-- Prefix test on character lists. -/
def isPreL : List Char → List Char → Bool
  | [], _ => true
  | _ :: _, [] => false
  | a :: p, b :: s => a = b && isPreL p s

/-- Substring containment (Python `needle in hay`); the empty needle is
contained in every string, as in Python. -/
def containsSubL (needle : List Char) : List Char → Bool
  | [] => isPreL needle []
  | c :: rest => isPreL needle (c :: rest) || containsSubL needle rest

/-- Python `needle in hay` on `String`. -/
def pyContains (hay needle : String) : Bool := containsSubL needle.data hay.data

/-- Index of the first occurrence of `needle` (model of `str.find` when
the needle occurs). -/
def findSubIdx (needle : List Char) : List Char → Option Nat
  | [] => if isPreL needle [] then some 0 else none
  | c :: rest =>
    if isPreL needle (c :: rest) then some 0
    else (findSubIdx needle rest).map (· + 1)

/-- Model of `s.split(sep)` for a non-empty separator, with `fuel`
bounding the recursion (callers pass `s.length + 1`). -/
def splitSubFuel (sep : List Char) : Nat → List Char → List (List Char)
  | 0, s => [s]
  | fuel + 1, s =>
    match findSubIdx sep s with
    | none => [s]
    | some i => s.take i :: splitSubFuel sep fuel (s.drop (i + sep.length))

/-- Model of Python `s.split(sep)` (non-empty `sep`). -/
def pySplit (s sep : String) : List String :=
  (splitSubFuel sep.data (s.data.length + 1) s.data).map fun l => ⟨l⟩

/-- Model of Python `s.split(sep, 1)`: split at the first occurrence only;
`none` when the separator does not occur. -/
def pySplitOnce (s sep : String) : Option (String × String) :=
  (findSubIdx sep.data s.data).map fun i =>
    (⟨s.data.take i⟩, ⟨s.data.drop (i + sep.data.length)⟩)

/-- Split a character list at every occurrence of `c`, keeping empty
pieces (so the empty input yields one empty piece, as in Python). -/
def splitCharList (c : Char) : List Char → List (List Char)
  | [] => [[]]
  | x :: rest =>
    if x = c then [] :: splitCharList c rest
    else
      match splitCharList c rest with
      | h :: t => (x :: h) :: t
      | [] => [[x]]

/-- Model of Python `s.split('\n')` (empty trailing/leading pieces kept;
`"".split('\n') == [""]`). -/
def splitLines (s : String) : List String := (splitCharList '\n' s.data).map fun l => ⟨l⟩

/-- Join character lists with a separator (Python `sep.join`). -/
def joinSep (sep : List Char) : List (List Char) → List Char
  | [] => []
  | [x] => x
  | x :: y :: xs => x ++ sep ++ joinSep sep (y :: xs)

/-- Model of Python `sep.join(parts)` on `String`. -/
def pyJoin (sep : String) (parts : List String) : String :=
  ⟨joinSep sep.data (parts.map String.data)⟩

/-- Helper for `squashWS`: `prevWS` records whether the previous
character was whitespace (already emitted as the single space). -/
def squashWSGo (prevWS : Bool) : List Char → List Char
  | [] => []
  | c :: rest =>
    if pyWS c then
      if prevWS then squashWSGo true rest else ' ' :: squashWSGo true rest
    else c :: squashWSGo false rest

/-- Collapse runs of whitespace to one space: model of
`re.sub(r'\s+', ' ', s)`. -/
def squashWS (s : List Char) : List Char := squashWSGo false s

/-- Word-boundary test between an adjacent character (`none` at the text
edge, which counts as a non-word side) and a pattern-edge character. -/
def bdryOk (adjacent : Option Char) (inner : Char) : Bool :=
  match adjacent with
  | none => isWordChar inner
  | some a => isWordChar a != isWordChar inner

/-- Occurrence test, from a given left-context character, for the Python
pattern `r'\b' + re.escape(lit) + r'\b'` used by the skill-vocabulary
search (the escaped literal is matched verbatim; both `\b` assertions use
`bdryOk` against the characters adjacent to the candidate occurrence). -/
def wordOccursFrom (lit : List Char) (prev : Option Char) : List Char → Bool
  | [] => false
  | c :: rest =>
    (decide (lit ≠ []) && isPreL lit (c :: rest) &&
      bdryOk prev (lit.headD c) &&
      bdryOk (((c :: rest).drop lit.length).head?) (lit.getLastD c))
    || wordOccursFrom lit (some c) rest

/-- Occurrence test for `re.search(r'\b' + re.escape(lit) + r'\b', text)`. -/
def wordPatternFound (lit text : String) : Bool :=
  wordOccursFrom lit.data none text.data

/-- Experience entry record (`Resume.add_experience` dictionary). -/
structure ExperienceRec where
  company : String
  title : String
  start_date : Option String := none
  end_date : Option String := none
  location : Option String := none
  description : Option String := none
  responsibilities : List String := []
deriving DecidableEq, Repr

/-- Education entry record (`Resume.add_education` dictionary); the GPA
float is modelled by `ℚ`. -/
structure EducationRec where
  institution : String
  degree : String
  field : Option String := none
  start_date : Option String := none
  end_date : Option String := none
  gpa : Option ℚ := none
  location : Option String := none
  description : Option String := none
deriving DecidableEq, Repr

/-- Project record (`Resume.add_project` dictionary); never populated by
the analysis pipeline. -/
structure ProjectRec where
  name : String
  description : Option String := none
  technologies : List String := []
  start_date : Option String := none
  end_date : Option String := none
  url : Option String := none
deriving DecidableEq, Repr

/-- Certification record (`Resume.add_certification` dictionary); never
populated by the analysis pipeline. -/
structure CertificationRec where
  name : String
  issuer : Option String := none
  date : Option String := none
  expiration_date : Option String := none
  url : Option String := none
deriving DecidableEq, Repr

/-- Language proficiency record (`Resume.add_language`). -/
structure LanguageRec where
  language : String
  proficiency : String
deriving DecidableEq, Repr

/-- The three-key category-score dictionary built by
`skills_analyzer.score_skills` (keys `technical`, `soft`, `domain`). -/
structure CategoryScores where
  technical : ℚ
  soft : ℚ
  domain : ℚ
deriving DecidableEq, Repr

/-- Sum of the values of the category-score dictionary
(`sum(resume.skill_scores.values())`; the empty initial dictionary,
modelled by `none`, sums to `0`). -/
def catSum : Option CategoryScores → ℚ
  | none => 0
  | some c => c.technical + c.soft + c.domain

/-- Number of keys of the category-score dictionary
(`len(resume.skill_scores)`). -/
def catLen : Option CategoryScores → ℕ
  | none => 0
  | some _ => 3

/-- The `Resume` data entity (`models/resume.py`).  The
`parsed_date` timestamp is omitted (excluded from every claim); the
`skill_scores` dictionary starts empty (`none`). -/
structure Resume where
  raw_text : String
  filename : String
  name : Option String := none
  email : Option String := none
  phone : Option String := none
  location : Option String := none
  linkedin : Option String := none
  website : Option String := none
  summary : Option String := none
  skills : List String := []
  education : List EducationRec := []
  experience : List ExperienceRec := []
  projects : List ProjectRec := []
  certifications : List CertificationRec := []
  languages : List LanguageRec := []
  skill_scores : Option CategoryScores := none
  experience_score : ℚ := 0
  education_score : ℚ := 0
  overall_score : ℚ := 0
  recommendations : List String := []
deriving DecidableEq, Repr

/-- Python truthiness of an optional string (`None` and `""` are falsy). -/
def optTruthy : Option String → Bool
  | none => false
  | some s => decide (s ≠ "")

/-- Python truthiness of an optional float (`None` and `0.0` are falsy). -/
def optQTruthy : Option ℚ → Bool
  | none => false
  | some q => decide (q ≠ 0)

/-- Model of `Resume.add_recommendation`: append when the string is
non-empty and not already present. -/
def addRecommendation (r : Resume) (rec : String) : Resume :=
  if rec ≠ "" ∧ rec ∉ r.recommendations then
    { r with recommendations := r.recommendations ++ [rec] }
  else r

/-- State of a backtracking regex match: remaining input, the character
just before it (for `\b`), and the matched characters in reverse. -/
structure MSt where
  rest : List Char
  prev : Option Char
  acc : List Char
deriving Repr

/-- A matcher returns all ways to continue, in regex preference order
(first element = the match Python's backtracking engine would commit to). -/
def Matcher : Type := MSt → List MSt

/-- Sequencing of matchers (regex concatenation). -/
def mSeq (a b : Matcher) : Matcher := fun st => (a st).flatMap b

/-- Ordered alternation (regex `|`, preferring the left branch). -/
def mAlt (a b : Matcher) : Matcher := fun st => a st ++ b st

/-- Empty match. -/
def mEps : Matcher := fun st => [st]

/-- Single character from a class (regex `[...]` or a literal char). -/
def mPred (p : Char → Bool) : Matcher := fun st =>
  match st.rest with
  | [] => []
  | c :: r => if p c then [⟨r, some c, c :: st.acc⟩] else []

/-- Literal character. -/
def mChar (c : Char) : Matcher := mPred (· = c)

/-- Literal character, case-insensitive (ASCII, for `re.IGNORECASE`). -/
def mCharCI (c : Char) : Matcher := mPred (fun x => lowerChar x = lowerChar c)

/-- Literal string. -/
def mLit (s : List Char) : Matcher := s.foldr (fun c k => mSeq (mChar c) k) mEps

/-- Literal string, case-insensitive. -/
def mLitCI (s : List Char) : Matcher := s.foldr (fun c k => mSeq (mCharCI c) k) mEps

/-- Greedy option (regex `?`): prefer consuming. -/
def mOpt (a : Matcher) : Matcher := mAlt a mEps

/-- Word-boundary assertion (regex `\b`): zero-width, holds when exactly
one of the two adjacent positions carries a word character. -/
def mBdry : Matcher := fun st =>
  let w : Option Char → Bool := fun x => (x.map isWordChar).getD false
  if w st.prev != w st.rest.head? then [st] else []

/-- Exact repetition (regex `{n}`). -/
def mRepExact : Nat → Matcher → Matcher
  | 0, _ => mEps
  | n + 1, a => mSeq a (mRepExact n a)

/-- Alternation chain for bounded repetition: `lo + k` down to `lo`
repetitions, greedy (more repetitions first). -/
def mRepRangeAux (lo : Nat) (a : Matcher) : Nat → Matcher
  | 0 => mRepExact lo a
  | k + 1 => mAlt (mRepExact (lo + k + 1) a) (mRepRangeAux lo a k)

/-- Bounded repetition (regex `{lo,hi}`), greedy: more repetitions first. -/
def mRepRange (lo : Nat) (hi : Nat) (a : Matcher) : Matcher :=
  mRepRangeAux lo a (hi - lo)

/-- Greedy Kleene star (regex `*`) with explicit fuel; callers pass the
input length, enough for any star whose body consumes a character. -/
def mStarFuel : Nat → Matcher → Matcher
  | 0, _ => mEps
  | n + 1, a => fun st => ((a st).flatMap (mStarFuel n a)) ++ [st]

/-- Greedy `+` with fuel for the star part. -/
def mPlusFuel (n : Nat) (a : Matcher) : Matcher := mSeq a (mStarFuel n a)

/-- Run a matcher anchored at the current position; returns the matched
text of the preferred (first) successful continuation. -/
def runMatchAt (m : Matcher) (prev : Option Char) (s : List Char) : Option (List Char) :=
  match m ⟨s, prev, []⟩ with
  | [] => none
  | st :: _ => some st.acc.reverse

/-- Model of `re.search`: try every start position left to right and
return the first (leftmost) match. -/
def searchM (m : Matcher) (prev : Option Char) : List Char → Option (List Char)
  | [] => runMatchAt m prev []
  | c :: rest =>
    match runMatchAt m prev (c :: rest) with
    | some r => some r
    | none => searchM m (some c) rest

/-- Model of `re.findall` (patterns without capturing groups): collect
non-overlapping matches left to right, resuming after each match (or one
character further for an empty match). -/
def findallGo (m : Matcher) : Nat → Option Char → List Char → List (List Char)
  | 0, _, _ => []
  | fuel + 1, prev, s =>
    match runMatchAt m prev s with
    | some r =>
      if r = [] then
        match s with
        | [] => [[]]
        | c :: rest => [] :: findallGo m fuel (some c) rest
      else r :: findallGo m fuel (r.getLast?.orElse fun _ => prev) (s.drop r.length)
    | none =>
      match s with
      | [] => []
      | c :: rest => findallGo m fuel (some c) rest

/-- Model of `re.findall` on a string. -/
def findallM (m : Matcher) (s : List Char) : List (List Char) :=
  findallGo m (s.length + 1) none s

/-- Chain of matchers (regex concatenation of a list). -/
def mChain (ms : List Matcher) : Matcher := ms.foldr mSeq mEps

/-- Digit class `\d`. -/
def mDigit : Matcher := mPred Char.isDigit

/-- Scan positions left to right, keeping the previous character for
boundary tests, and return the first position where `f` succeeds. -/
def scanPrevFirst (f : Option Char → List Char → Option α) : Option Char → List Char → Option α
  | prev, [] => f prev []
  | prev, c :: rest =>
    match f prev (c :: rest) with
    | some r => some r
    | none => scanPrevFirst f (some c) rest

namespace ContentAnalyzer

/-- Keywords excluding a line from being taken as the candidate name
(`content_analyzer.extract_contact_info`). -/
def nameKeywords : List String := ["resume", "cv", "curriculum"]

/-- Name heuristic: first of the first five lines that is non-empty after
stripping, shorter than 50 characters, and free of the keywords. -/
def extractNameGo : List String → Option String
  | [] => none
  | l :: ls =>
    let line := pyStrip l
    if line ≠ "" ∧ line.length < 50 ∧
        ¬ (nameKeywords.any fun kw => pyContains (pyLower line) kw) then
      some line
    else extractNameGo ls

/-- Model of the name-extraction loop over `lines[:5]`. -/
def extractName (text : String) : Option String :=
  extractNameGo ((splitLines text).take 5)

/-- Character class `[a-zA-Z0-9._%+-]` of the email local part. -/
def emailLocalChar (c : Char) : Bool :=
  c.isAlphanum || c = '.' || c = '_' || c = '%' || c = '+' || c = '-'

/-- Character class `[a-zA-Z0-9.-]` of the email domain part. -/
def emailDomChar (c : Char) : Bool := c.isAlphanum || c = '.' || c = '-'

/-- Backtracking of `[a-zA-Z0-9.-]+\.[a-zA-Z]{2,}` inside the maximal
domain run: pick the rightmost `.` with a non-empty prefix before it and
at least two letters after it; the matched TLD is the maximal letter run
there (greedy `{2,}` ending the pattern). -/
def emailDomSplitGo (seen : List Char) (best : Option (List Char × List Char)) :
    List Char → Option (List Char × List Char)
  | [] => best
  | c :: r =>
    if c = '.' then
      let tld := r.takeWhile isAsciiAlpha
      let keep := if seen ≠ [] ∧ 2 ≤ tld.length then some (seen.reverse, tld) else best
      emailDomSplitGo (c :: seen) keep r
    else emailDomSplitGo (c :: seen) best r

/-- Anchored match of `r'[a-zA-Z0-9._%+-]+@[a-zA-Z0-9.-]+\.[a-zA-Z]{2,}'`:
a maximal local run (backtracking cannot expose the `@` any other way), a
literal `@`, and the domain backtracking of `emailDomSplitGo`. -/
def emailMatchAt (s : List Char) : Option (List Char) :=
  let lp := s.takeWhile emailLocalChar
  if lp = [] then none
  else
    match s.drop lp.length with
    | '@' :: r2 =>
      let dom := r2.takeWhile emailDomChar
      match emailDomSplitGo [] none dom with
      | some (d, tld) => some (lp ++ '@' :: (d ++ '.' :: tld))
      | none => none
    | _ => none

/-- Scan positions left to right, returning the first anchored success. -/
def scanFirstOpt (f : List Char → Option α) : List Char → Option α
  | [] => f []
  | c :: rest =>
    match f (c :: rest) with
    | some r => some r
    | none => scanFirstOpt f rest

/-- First (leftmost) email match: `re.findall(email_pattern, text)[0]`. -/
def findEmail (text : List Char) : Option String :=
  (scanFirstOpt emailMatchAt text).map fun l => ⟨l⟩

/-- Separator class `[-.]`. -/
def sepDotDash (c : Char) : Bool := c = '-' || c = '.'

/-- Separator class `[-. ]`. -/
def sepDotDashSpace (c : Char) : Bool := c = '-' || c = '.' || c = ' '

/-- Phone pattern `r'\b\d{3}[-.]?\d{3}[-.]?\d{4}\b'`. -/
def phonePat1 : Matcher :=
  mChain [mBdry, mRepExact 3 mDigit, mOpt (mPred sepDotDash),
    mRepExact 3 mDigit, mOpt (mPred sepDotDash), mRepExact 4 mDigit, mBdry]

/-- Phone pattern `r'\b\(\d{3}\)[-. ]?\d{3}[-.]?\d{4}\b'`. -/
def phonePat2 : Matcher :=
  mChain [mBdry, mChar '(', mRepExact 3 mDigit, mChar ')', mOpt (mPred sepDotDashSpace),
    mRepExact 3 mDigit, mOpt (mPred sepDotDash), mRepExact 4 mDigit, mBdry]

/-- Phone pattern `r'\b\+\d{1,3}[-. ]?\d{3}[-. ]?\d{3}[-. ]?\d{4}\b'`. -/
def phonePat3 : Matcher :=
  mChain [mBdry, mChar '+', mRepRange 1 3 mDigit, mOpt (mPred sepDotDashSpace),
    mRepExact 3 mDigit, mOpt (mPred sepDotDashSpace), mRepExact 3 mDigit,
    mOpt (mPred sepDotDashSpace), mRepExact 4 mDigit, mBdry]

/-- Phone loop: first pattern whose `findall` is non-empty supplies its
first match. -/
def findPhone (text : List Char) : Option String :=
  match findallM phonePat1 text with
  | r :: _ => some ⟨r⟩
  | [] =>
    match findallM phonePat2 text with
    | r :: _ => some ⟨r⟩
    | [] =>
      match findallM phonePat3 text with
      | r :: _ => some ⟨r⟩
      | [] => none

/-- Character class `[\w-]`. -/
def wordDashChar (c : Char) : Bool := isWordChar c || c = '-'

/-- Character class `[\w.-]`. -/
def wordDotDashChar (c : Char) : Bool := isWordChar c || c = '.' || c = '-'

/-- LinkedIn pattern `r'linkedin\.com/in/[\w-]+'` (IGNORECASE). -/
def linkedinPat1 (fuel : Nat) : Matcher :=
  mSeq (mLitCI "linkedin.com/in/".data) (mPlusFuel fuel (mPred wordDashChar))

/-- LinkedIn pattern `r'linkedin\.com/profile/[\w-]+'` (IGNORECASE). -/
def linkedinPat2 (fuel : Nat) : Matcher :=
  mSeq (mLitCI "linkedin.com/profile/".data) (mPlusFuel fuel (mPred wordDashChar))

/-- LinkedIn loop: first pattern with a match supplies its first match. -/
def findLinkedin (text : List Char) : Option String :=
  match findallM (linkedinPat1 text.length) text with
  | r :: _ => some ⟨r⟩
  | [] =>
    match findallM (linkedinPat2 text.length) text with
    | r :: _ => some ⟨r⟩
    | [] => none

/-- Website pattern `r'https?://(?:www\.)?[\w-]+\.[\w.-]+(?:/[\w.-]*)*/?'`. -/
def websitePat1 (fuel : Nat) : Matcher :=
  mChain [mLit "http".data, mOpt (mChar 's'), mLit "://".data, mOpt (mLit "www.".data),
    mPlusFuel fuel (mPred wordDashChar), mChar '.', mPlusFuel fuel (mPred wordDotDashChar),
    mStarFuel fuel (mSeq (mChar '/') (mStarFuel fuel (mPred wordDotDashChar))),
    mOpt (mChar '/')]

/-- Website pattern `r'www\.[\w-]+\.[\w.-]+(?:/[\w.-]*)*/?'`. -/
def websitePat2 (fuel : Nat) : Matcher :=
  mChain [mLit "www.".data,
    mPlusFuel fuel (mPred wordDashChar), mChar '.', mPlusFuel fuel (mPred wordDotDashChar),
    mStarFuel fuel (mSeq (mChar '/') (mStarFuel fuel (mPred wordDotDashChar))),
    mOpt (mChar '/')]

/-- Sites filtered out of website candidates. -/
def websiteBanned : List String :=
  ["linkedin", "indeed", "monster", "careerbuilder", "glassdoor"]

/-- First website match surviving the ban filter. -/
def firstUnbanned (ms : List (List Char)) : Option String :=
  match ms.filter (fun w => !(websiteBanned.any fun site => pyContains (pyLower ⟨w⟩) site)) with
  | w :: _ => some ⟨w⟩
  | [] => none

/-- Website loop: a pattern only terminates the loop when its filtered
match list is non-empty, so the behaviour is an `orElse` of the filtered
first matches. -/
def findWebsite (text : List Char) : Option String :=
  match firstUnbanned (findallM (websitePat1 (text.length + 1)) text) with
  | some w => some w
  | none => firstUnbanned (findallM (websitePat2 (text.length + 1)) text)

/-- Lowercase ASCII class `[a-z]`. -/
def isLowerAZ (c : Char) : Bool := decide ('a' ≤ c) && decide (c ≤ 'z')

/-- Parse `[A-Z][a-z]+` (one capitalized word), maximal-munch on the
lowercase run (its follow set never contains a lowercase letter). -/
def pCapWord : List Char → Option (List Char × List Char)
  | [] => none
  | c :: rest =>
    if isUpperChar c then
      let ls := rest.takeWhile isLowerAZ
      if ls = [] then none else some (c :: ls, rest.drop ls.length)
    else none

/-- All stop states of a greedy star, longest iteration count first; the
iteration parser must consume at least one character (fuel bounds it). -/
def starStops (iterP : List Char → Option (List Char × List Char)) :
    Nat → List Char → List Char → List (List Char × List Char)
  | 0, acc, rest => [(acc, rest)]
  | fuel + 1, acc, rest =>
    match iterP rest with
    | some (c, r) => starStops iterP fuel (acc ++ c) r ++ [(acc, rest)]
    | none => [(acc, rest)]

/-- One iteration of `(?:\s[A-Z][a-z]+)`: exactly one whitespace, then a
capitalized word. -/
def capIterOneWS : List Char → Option (List Char × List Char)
  | [] => none
  | c :: rest =>
    if pyWS c then (pCapWord rest).map fun p => (c :: p.1, p.2)
    else none

/-- Try the tail parser at each star stop (greedy order). -/
def tryStopsWith (tail : List Char → Option (List Char)) :
    List (List Char × List Char) → Option (List Char)
  | [] => none
  | (acc, rest) :: more =>
    match tail rest with
    | some t => some (acc ++ t)
    | none => tryStopsWith tail more

/-- Tail `,\s[A-Z]{2}\b` of the contact location pattern. -/
def contactLocATail : List Char → Option (List Char)
  | ',' :: c :: a :: b :: r =>
    if pyWS c ∧ isUpperChar a ∧ isUpperChar b ∧ bdryOk r.head? b then
      some [',', c, a, b]
    else none
  | _ => none

/-- Anchored match of `r'\b[A-Z][a-z]+(?:\s[A-Z][a-z]+)*,\s[A-Z]{2}\b'`. -/
def contactLocAAt (prev : Option Char) (s : List Char) : Option (List Char) :=
  match pCapWord s with
  | none => none
  | some (w1, r1) =>
    if bdryOk prev (s.headD ' ') then
      tryStopsWith contactLocATail (starStops capIterOneWS r1.length w1 r1)
    else none

/-- Tail `\s\d{5}\b` of the city-zip contact location pattern. -/
def contactLocBTail : List Char → Option (List Char)
  | c :: d1 :: d2 :: d3 :: d4 :: d5 :: r =>
    if pyWS c ∧ d1.isDigit ∧ d2.isDigit ∧ d3.isDigit ∧ d4.isDigit ∧ d5.isDigit ∧
        bdryOk r.head? d5 then
      some [c, d1, d2, d3, d4, d5]
    else none
  | _ => none

/-- Anchored match of `r'\b[A-Z][a-z]+(?:\s[A-Z][a-z]+)*\s\d{5}\b'`. -/
def contactLocBAt (prev : Option Char) (s : List Char) : Option (List Char) :=
  match pCapWord s with
  | none => none
  | some (w1, r1) =>
    if bdryOk prev (s.headD ' ') then
      tryStopsWith contactLocBTail (starStops capIterOneWS r1.length w1 r1)
    else none

/-- Location loop of `extract_contact_info`: first pattern with a match
supplies its first (leftmost) match. -/
def findContactLocation (text : List Char) : Option String :=
  match scanPrevFirst contactLocAAt none text with
  | some r => some ⟨r⟩
  | none => (scanPrevFirst contactLocBAt none text).map fun r => ⟨r⟩

/-- Model of `content_analyzer.extract_contact_info`. -/
def extract_contact_info (r : Resume) : Resume :=
  let text := r.raw_text
  { r with
    name := extractName text
    email := findEmail text.data
    phone := findPhone text.data
    linkedin := findLinkedin text.data
    website := findWebsite text.data
    location := findContactLocation text.data }

/-- Summary section headers. -/
def summaryHeaders : List String :=
  ["summary", "professional summary", "profile", "professional profile",
   "objective", "career objective", "about me", "career summary"]

/-- Header test shared by the section scanners: the stripped lowered line
equals a header or contains one as a substring. -/
def headerMatches (headers : List String) (line : String) : Bool :=
  let ll := pyStrip (pyLower line)
  headers.any fun h => h = ll || pyContains ll h

/-- End-of-summary test: `line and line[0].isupper() and line[-1] == ':'
or line.lower().strip() in [...]` (Python precedence: the conjunction
binds before `or`). -/
def summaryEnd (line : String) : Bool :=
  (decide (line ≠ "") && isUpperChar (line.data.headD ' ') &&
    decide (line.data.getLastD ' ' = ':'))
  || (["skills", "experience", "education", "work experience",
       "employment", "projects", "certifications"].contains (pyStrip (pyLower line)))

/-- Section scanner core shared by the three analyzers: a header line
(re)sets the start to the next line and is never an end candidate; the
first subsequent end line breaks the loop. -/
def sectionBoundsGo (isHeader isEnd : String → Bool) :
    Nat → Option Nat → List String → Option (Nat × Option Nat)
  | _, st, [] => st.map fun s => (s, none)
  | i, st, l :: ls =>
    if isHeader l then sectionBoundsGo isHeader isEnd (i + 1) (some (i + 1)) ls
    else
      match st with
      | some s => if isEnd l then some (s, some i) else sectionBoundsGo isHeader isEnd (i + 1) st ls
      | none => sectionBoundsGo isHeader isEnd (i + 1) none ls

/-- Model of `content_analyzer.extract_summary`: summary capped at five
lines when no end line is found; the joined text is whitespace-squashed
and only a non-empty result is stored. -/
def extract_summary (r : Resume) : Resume :=
  let lines := splitLines r.raw_text
  match sectionBoundsGo (headerMatches summaryHeaders) summaryEnd 0 none lines with
  | none => r
  | some (s, e) =>
    let eIdx := match e with | some j => j | none => min (s + 5) lines.length
    let sLines := ((lines.drop s).take (eIdx - s)).filterMap fun l =>
      let t := pyStrip l
      if t = "" then none else some t
    let cleaned := pyStrip ⟨squashWS (pyJoin " " sLines).data⟩
    if cleaned ≠ "" then { r with summary := some cleaned } else r

/-- Model of `content_analyzer.analyze`. -/
def analyze (r : Resume) : Resume := extract_summary (extract_contact_info r)

end ContentAnalyzer

namespace SkillsAnalyzer

/-- The `DEFAULT_SKILLS` dictionary of `skills_analyzer.py`, in its
definition (iteration) order. -/
def DEFAULT_SKILLS : List (String × List String) := [
  ("programming_languages", ["Python", "Java", "JavaScript", "C++", "C#", "Ruby", "PHP", "Swift", "Kotlin", "Go", "Rust", "TypeScript", "Scala", "Perl", "R", "MATLAB", "Bash", "PowerShell", "SQL", "HTML", "CSS", "C", "Objective-C", "Dart", "Groovy", "VBA", "Lua", "Haskell", "Clojure", "F#", "COBOL", "Fortran"]),
  ("frameworks_libraries", ["React", "Angular", "Vue.js", "Django", "Flask", "Spring", "ASP.NET", "Express.js", "Node.js", "jQuery", "Bootstrap", "TensorFlow", "PyTorch", "Keras", "Pandas", "NumPy", "Scikit-learn", "Laravel", "Ruby on Rails", "Symfony", "Flutter", "React Native", "Xamarin", "Unity", "Unreal Engine", "Next.js", "Gatsby", "Redux", "Vuex", "MobX", "RxJS", "D3.js", "Three.js"]),
  ("databases", ["MySQL", "PostgreSQL", "MongoDB", "SQLite", "Oracle", "SQL Server", "Redis", "Cassandra", "Elasticsearch", "DynamoDB", "Firebase", "Neo4j", "MariaDB", "CouchDB", "Firestore", "Realm", "InfluxDB", "Couchbase"]),
  ("cloud_platforms", ["AWS", "Azure", "Google Cloud", "Heroku", "DigitalOcean", "Linode", "IBM Cloud", "Oracle Cloud", "Alibaba Cloud", "Salesforce", "Netlify", "Vercel", "Firebase", "AWS Lambda", "EC2", "S3", "RDS", "DynamoDB", "CloudFront", "Route 53", "IAM", "Azure Functions", "App Service", "Google App Engine", "Google Kubernetes Engine", "Cloud Functions"]),
  ("devops_tools", ["Docker", "Kubernetes", "Jenkins", "GitLab CI", "GitHub Actions", "Travis CI", "CircleCI", "Ansible", "Terraform", "Puppet", "Chef", "Vagrant", "Prometheus", "Grafana", "ELK Stack", "Nagios", "Zabbix", "New Relic", "Datadog", "Splunk", "Sentry", "Airflow", "Argo CD"]),
  ("version_control", ["Git", "SVN", "Mercurial", "GitHub", "GitLab", "Bitbucket", "Azure DevOps"]),
  ("methodologies", ["Agile", "Scrum", "Kanban", "Waterfall", "Lean", "XP", "TDD", "BDD", "DevOps", "CI/CD", "Microservices", "Serverless", "Domain-Driven Design"]),
  ("soft_skills", ["Communication", "Teamwork", "Problem Solving", "Critical Thinking", "Time Management", "Leadership", "Adaptability", "Creativity", "Collaboration", "Emotional Intelligence", "Conflict Resolution", "Decision Making", "Negotiation", "Presentation", "Public Speaking", "Mentoring", "Coaching"]),
  ("data_science", ["Machine Learning", "Deep Learning", "Natural Language Processing", "Computer Vision", "Data Mining", "Data Analysis", "Data Visualization", "Statistical Analysis", "A/B Testing", "Regression", "Classification", "Clustering", "Dimensionality Reduction", "Feature Engineering", "Reinforcement Learning", "Time Series Analysis", "Bayesian Methods"]),
  ("design", ["UI/UX", "Photoshop", "Illustrator", "Sketch", "Figma", "InDesign", "After Effects", "Premiere Pro", "Blender", "3D Modeling", "Animation", "Wireframing", "Prototyping", "User Research", "Usability Testing", "Responsive Design", "Graphic Design", "Typography", "Color Theory"]),
  ("project_management", ["JIRA", "Trello", "Asana", "Monday.com", "ClickUp", "Basecamp", "Microsoft Project", "Smartsheet", "Notion", "Confluence", "Slack", "Microsoft Teams", "Zoom", "Google Meet", "Risk Management", "Budgeting", "Resource Allocation", "Stakeholder Management"]),
  ("mobile_development", ["iOS", "Android", "Swift", "Kotlin", "Objective-C", "Java", "React Native", "Flutter", "Xamarin", "Ionic", "Cordova", "PhoneGap", "SwiftUI", "Jetpack Compose", "ARKit", "ARCore", "Core ML", "TensorFlow Lite"]),
  ("testing", ["Unit Testing", "Integration Testing", "Functional Testing", "End-to-End Testing", "Regression Testing", "Performance Testing", "Load Testing", "Stress Testing", "Security Testing", "Penetration Testing", "JUnit", "pytest", "Mocha", "Jest", "Selenium", "Cypress", "Appium", "TestNG", "Jasmine", "Karma", "Postman"]),
  ("security", ["Cybersecurity", "Network Security", "Application Security", "Cloud Security", "Encryption", "Authentication", "Authorization", "OAuth", "JWT", "SAML", "SSO", "Firewall", "VPN", "Intrusion Detection", "Penetration Testing", "Vulnerability Assessment", "Security Auditing", "Compliance", "GDPR", "HIPAA"])
]

/-- Model of `_load_skills_data`: the optional `data/skills.json` file is
absent from the repository, so the default dictionary is always used. -/
def loadSkillsData : List (String × List String) := DEFAULT_SKILLS

/-- Skills section headers of `_extract_skills_section`. -/
def skillsSectionHeaders : List String :=
  ["skills", "technical skills", "core skills", "key skills",
   "professional skills", "competencies", "areas of expertise"]

/-- End-of-skills-section test: `line and line[0].isupper() and
line[-1] == ':' or line.lower().strip() in [...]`. -/
def skillsSectionEnd (line : String) : Bool :=
  (decide (line ≠ "") && isUpperChar (line.data.headD ' ') &&
    decide (line.data.getLastD ' ' = ':'))
  || (["experience", "education", "work experience",
       "employment", "projects", "certifications"].contains (pyStrip (pyLower line)))

/-- Model of `_extract_skills_section`: capped at ten lines when no end
line is found; the joined text is whitespace-squashed and stripped. -/
def extract_skills_section (text : String) : Option String :=
  let lines := splitLines text
  match ContentAnalyzer.sectionBoundsGo (ContentAnalyzer.headerMatches skillsSectionHeaders)
      skillsSectionEnd 0 none lines with
  | none => none
  | some (s, e) =>
    let eIdx := match e with | some j => j | none => min (s + 10) lines.length
    let sLines := ((lines.drop s).take (eIdx - s)).filterMap fun l =>
      let t := pyStrip l
      if t = "" then none else some t
    some (pyStrip ⟨squashWS (pyJoin " " sLines).data⟩)

/-- Delimiters tried, in order, on the skills section. -/
def skillDelims : List String := [",", "•", "·", "\n", ";"]

/-- The found-skill set of `extract_skills` (a Python `set`), kept as a
duplicate-free list: the vocabulary pass adds every dictionary skill
whose lowered form occurs word-bounded in the lowered text; the section
pass splits on the first present delimiter and adds stripped tokens of
length 2..50. -/
def foundSkills (r : Resume) (skillsData : List (String × List String)) : List String :=
  let text := pyLower r.raw_text
  let found1 : List String := skillsData.foldl
    (fun acc kv => kv.2.foldl
      (fun acc skill =>
        if wordPatternFound (pyLower skill) text then acc.insert skill else acc)
      acc)
    []
  match extract_skills_section r.raw_text with
  | none => found1
  | some sec =>
    if sec ≠ "" then
      match skillDelims.find? (fun d => pyContains sec d) with
      | some d =>
        (pySplit sec d).foldl
          (fun acc tok =>
            let t := pyStrip tok
            if t ≠ "" ∧ 2 ≤ t.length ∧ t.length ≤ 50 then acc.insert t else acc)
          found1
      | none => found1
    else found1

/-- Model of `extract_skills`: the found set is stored sorted
(`sorted(list(found_skills))`). -/
def extract_skills (r : Resume) (skillsData : List (String × List String)) : Resume :=
  { r with skills := @List.insertionSort String (· ≤ ·) strLeDecidable (foundSkills r skillsData) }

/-- Keyword lists of the `score_skills` category table. -/
def technicalKeywords : List String :=
  ["programming", "language", "framework", "library", "database",
   "cloud", "devops", "version control", "testing", "security"]

/-- Soft-skill keywords of the `score_skills` category table. -/
def softKeywords : List String :=
  ["communication", "teamwork", "problem solving", "critical thinking",
   "time management", "leadership", "adaptability", "creativity"]

/-- Domain keywords of the `score_skills` category table. -/
def domainKeywords : List String :=
  ["industry", "domain", "sector", "field", "business", "finance",
   "healthcare", "education", "retail", "manufacturing", "technology"]

/-- Count of skills containing one of the category keywords (the
`category_score` accumulation loop). -/
def categoryRawScore (keywords : List String) (skills : List String) : ℚ :=
  ((skills.filter fun skill => keywords.any fun kw => pyContains (pyLower skill) kw).length : ℚ)

/-- Normalization `min(10.0, (category_score / max_skills) * 10.0)` with
`max_skills = 10`, times the category weight. -/
def categoryWeighted (weight : ℚ) (keywords : List String) (skills : List String) : ℚ :=
  min 10 ((categoryRawScore keywords skills / 10) * 10) * weight

/-- Model of `skills_analyzer.score_skills`: stores the three weighted
category scores and appends threshold/balance recommendations. -/
def score_skills (r : Resume) : Resume :=
  let tech := categoryWeighted 0.6 technicalKeywords r.skills
  let soft := categoryWeighted 0.2 softKeywords r.skills
  let domain := categoryWeighted 0.2 domainKeywords r.skills
  let overall := tech + soft + domain
  let r := { r with skill_scores := some ⟨tech, soft, domain⟩ }
  let r :=
    if overall < 3 then
      addRecommendation r "Consider adding more specific skills to your resume, especially technical skills."
    else if overall < 6 then
      addRecommendation r "Your skills section is good, but could be improved by adding more specialized skills relevant to your target role."
    else r
  if tech > 3 * soft then
    addRecommendation r "Consider adding more soft skills to balance your technical expertise."
  else if soft > 3 * tech then
    addRecommendation r "Consider adding more technical skills to complement your soft skills."
  else r

/-- Model of `skills_analyzer.analyze`. -/
def analyze (r : Resume) : Resume := score_skills (extract_skills r loadSkillsData)

end SkillsAnalyzer

namespace ExperienceAnalyzer

open ContentAnalyzer

/-- Experience section header synonyms. -/
def experienceHeaders : List String :=
  ["experience", "work experience", "employment history", "professional experience",
   "career history", "work history"]

/-- Education section header synonyms. -/
def educationHeaders : List String :=
  ["education", "academic background", "educational background", "academic history",
   "educational history", "academic qualifications", "educational qualifications"]

/-- End-of-section test of `_extract_section`:
`line and line[0].isupper() and (line[-1] == ':' or line.isupper()) or
line.lower().strip() in [...]`. -/
def expSectionEnd (line : String) : Bool :=
  (decide (line ≠ "") && isUpperChar (line.data.headD ' ') &&
    (decide (line.data.getLastD ' ' = ':') || pyIsUpper line))
  || (["skills", "education", "experience", "projects", "certifications",
       "summary", "objective", "profile"].contains (pyStrip (pyLower line)))

/-- Model of `_extract_section`: on success the body is the newline-join
of the raw in-range lines whose stripped form is non-empty (a found
section with no such line yields the empty string, which callers treat as
falsy). -/
def extract_section (text : String) (headers : List String) : Option String :=
  let lines := splitLines text
  match sectionBoundsGo (headerMatches headers) expSectionEnd 0 none lines with
  | none => none
  | some (s, e) =>
    let eIdx := e.getD lines.length
    some (pyJoin "\n" (((lines.drop s).take (eIdx - s)).filter fun l => pyStrip l != ""))

/-- Parse exactly `n` digits (regex `\d{n}`; further digits may follow). -/
def pDigits : Nat → List Char → Option (List Char × List Char)
  | 0, s => some ([], s)
  | _ + 1, [] => none
  | n + 1, c :: r =>
    if c.isDigit then (pDigits n r).map fun p => (c :: p.1, p.2) else none

/-- Parse a separator character followed by `\d{4}`, prefixing `pre`. -/
def pSepY4 (sep : Char) (pre : List Char) : List Char → Option (List Char × List Char)
  | [] => none
  | c :: r =>
    if c = sep then (pDigits 4 r).map fun p => (pre ++ c :: p.1, p.2) else none

/-- Parse `\d{1,2}X\d{4}` (`X` the separator): greedy on the month
digits, backtracking from two to one when the separator does not follow. -/
def pMMsepYYYY (sep : Char) (s : List Char) : Option (List Char × List Char) :=
  match pDigits 2 s with
  | some (mm, rest) =>
    match pSepY4 sep mm rest with
    | some res => some res
    | none =>
      match pDigits 1 s with
      | some (m1, rest1) => pSepY4 sep m1 rest1
      | none => none
  | none =>
    match pDigits 1 s with
    | some (m1, rest1) => pSepY4 sep m1 rest1
    | none => none

/-- Parse `\d{4}`. -/
def pYYYY (s : List Char) : Option (List Char × List Char) := pDigits 4 s

/-- Parse `[A-Z][a-z]+\s+\d{4}` (month name and year); all three runs
have disjoint follow sets, so maximal munch is faithful. -/
def pMonthY4 (s : List Char) : Option (List Char × List Char) :=
  match s with
  | [] => none
  | c :: rest =>
    if isUpperChar c then
      let ls := rest.takeWhile isLowerAZ
      if ls = [] then none
      else
        let r1 := rest.drop ls.length
        let ws := r1.takeWhile pyWS
        if ws = [] then none
        else (pDigits 4 (r1.drop ws.length)).map fun p => (c :: ls ++ ws ++ p.1, p.2)
    else none

/-- End-of-range token: the pattern alternation
`(<date form>|Present|Current|Now)`, date form first, literals in order. -/
def pEndToken (pdate : List Char → Option (List Char × List Char)) (s : List Char) :
    Option (List Char × List Char) :=
  match pdate s with
  | some r => some r
  | none =>
    if isPreL "Present".data s then some ("Present".data, s.drop 7)
    else if isPreL "Current".data s then some ("Current".data, s.drop 7)
    else if isPreL "Now".data s then some ("Now".data, s.drop 3)
    else none

/-- Anchored match of `(<g1>)\s*-\s*(<g2>)`: both `\s*` runs are maximal
(their follow characters are never whitespace). -/
def pRangeAt (p1 p2 : List Char → Option (List Char × List Char)) (s : List Char) :
    Option (List Char × List Char) :=
  match p1 s with
  | none => none
  | some (g1, r1) =>
    match r1.dropWhile pyWS with
    | '-' :: r3 =>
      match p2 (r3.dropWhile pyWS) with
      | some (g2, _) => some (g1, g2)
      | none => none
    | _ => none

/-- The five date-range patterns of `_extract_dates`, in priority order
(the fifth is a verbatim duplicate of the fourth in the source). -/
def findDateRange (entry : List Char) : Option (List Char × List Char) :=
  match scanFirstOpt (pRangeAt (pMMsepYYYY '/') (pEndToken (pMMsepYYYY '/'))) entry with
  | some r => some r
  | none =>
  match scanFirstOpt (pRangeAt (pMMsepYYYY '-') (pEndToken (pMMsepYYYY '-'))) entry with
  | some r => some r
  | none =>
  match scanFirstOpt (pRangeAt pYYYY (pEndToken pYYYY)) entry with
  | some r => some r
  | none =>
  match scanFirstOpt (pRangeAt pMonthY4 (pEndToken pMonthY4)) entry with
  | some r => some r
  | none => scanFirstOpt (pRangeAt pMonthY4 (pEndToken pMonthY4)) entry

/-- Model of `_extract_dates`: first matching pattern supplies the two
captured groups; an end token in `['Present', 'Current', 'Now']` is
normalized to the literal `"Present"`. -/
def extract_dates (entry : String) : Option String × Option String :=
  match findDateRange entry.data with
  | none => (none, none)
  | some (s, e) =>
    let eS : String := ⟨e⟩
    (some ⟨s⟩, some (if eS ∈ ["Present", "Current", "Now"] then "Present" else eS))

/-- One iteration of `(?:\s+[A-Z][a-z]+)`: maximal whitespace run (at
least one) then a capitalized word. -/
def capIterManyWS (s : List Char) : Option (List Char × List Char) :=
  let ws := s.takeWhile pyWS
  if ws = [] then none
  else (pCapWord (s.drop ws.length)).map fun p => (ws ++ p.1, p.2)

/-- Try a two-group tail at each star stop (greedy order), returning the
pair (group 1 content, group 2 content). -/
def tryStopsPair (tail : List Char → Option (List Char)) :
    List (List Char × List Char) → Option (List Char × List Char)
  | [] => none
  | (acc, rest) :: more =>
    match tail rest with
    | some g2 => some (acc, g2)
    | none => tryStopsPair tail more

/-- Maximal `[A-Z][a-z]+(?:\s+[A-Z][a-z]+)*` phrase (a group ending the
pattern is taken greedily with no backtracking). -/
def pCapPhraseMax (s : List Char) : Option (List Char) :=
  match pCapWord s with
  | none => none
  | some (w, r) =>
    match starStops capIterManyWS r.length w r with
    | (acc, _) :: _ => some acc
    | [] => some w

/-- Tail `,\s+([A-Z]{2})` of location pattern 1. -/
def locTail1 : List Char → Option (List Char)
  | ',' :: r =>
    let ws := r.takeWhile pyWS
    if ws = [] then none
    else
      match r.drop ws.length with
      | a :: b :: _ => if isUpperChar a ∧ isUpperChar b then some [a, b] else none
      | _ => none
  | _ => none

/-- Tail `,\s+([A-Z][a-z]+(?:\s+[A-Z][a-z]+)*)` of location pattern 2. -/
def locTail2 : List Char → Option (List Char)
  | ',' :: r =>
    let ws := r.takeWhile pyWS
    if ws = [] then none else pCapPhraseMax (r.drop ws.length)
  | _ => none

/-- Tail `,\s+([A-Z]{2}|[A-Z][a-z]+(?:\s+[A-Z][a-z]+)*)` of location
pattern 3 (two-letter alternative preferred). -/
def locTail3 : List Char → Option (List Char)
  | ',' :: r =>
    let ws := r.takeWhile pyWS
    if ws = [] then none
    else
      match r.drop ws.length with
      | a :: b :: rr =>
        if isUpperChar a ∧ isUpperChar b then some [a, b]
        else pCapPhraseMax (a :: b :: rr)
      | rr => pCapPhraseMax rr
  | _ => none

/-- Anchored match of `([A-Z][a-z]+(?:\s+[A-Z][a-z]+)*)` followed by a
tail, backtracking over the star stops. -/
def locGroupsAt (tail : List Char → Option (List Char)) (s : List Char) :
    Option (List Char × List Char) :=
  match pCapWord s with
  | none => none
  | some (w1, r1) => tryStopsPair tail (starStops capIterManyWS r1.length w1 r1)

/-- Anchored match of location pattern 3:
`Location:\s+(...),\s+([A-Z]{2}|...)`. -/
def locPat3At (s : List Char) : Option (List Char × List Char) :=
  if isPreL "Location:".data s then
    let r := s.drop 9
    let ws := r.takeWhile pyWS
    if ws = [] then none else locGroupsAt locTail3 (r.drop ws.length)
  else none

/-- Model of `_extract_location`: first pattern with a match wins, and
the result is reformatted as `f"{city}, {state_country}"`. -/
def extract_location (entry : String) : Option String :=
  let fmt : List Char × List Char → String := fun p => ⟨p.1⟩ ++ ", " ++ ⟨p.2⟩
  match scanFirstOpt (locGroupsAt locTail1) entry.data with
  | some p => some (fmt p)
  | none =>
    match scanFirstOpt (locGroupsAt locTail2) entry.data with
    | some p => some (fmt p)
    | none => (scanFirstOpt locPat3At entry.data).map fmt


/-- Anchored match of the splitter `\s+at\s+` (IGNORECASE): maximal
whitespace, the literal `at`, maximal whitespace; returns the text after
the separator. -/
def atMatchAt (s : List Char) : Option (List Char) :=
  let ws1 := s.takeWhile pyWS
  if ws1 = [] then none
  else
    match s.drop ws1.length with
    | a :: t :: r2 =>
      if lowerChar a = 'a' ∧ lowerChar t = 't' then
        let ws2 := r2.takeWhile pyWS
        if ws2 = [] then none else some (r2.drop ws2.length)
      else none
    | _ => none

/-- Model of `re.split(r'\s+at\s+', line, maxsplit=1)` restricted to the
guarded case: split at the leftmost separator occurrence. -/
def atSplitGo (pre : List Char) : List Char → Option (List Char × List Char)
  | [] => none
  | c :: rest =>
    match atMatchAt (c :: rest) with
    | some r => some (pre.reverse, r)
    | none => atSplitGo (c :: pre) rest

/-- Delimiter loop of `_extract_company_title` over `lines[:3]`; returns
`(company, title)` when one of the three patterns fires. -/
def companyTitleLoop : List String → Option (String × String)
  | [] => none
  | l :: ls =>
    let line := pyStrip l
    if pyContains line " - " then
      (pySplitOnce line " - ").map fun p => (pyStrip p.1, pyStrip p.2)
    else if pyContains (pyLower line) " at " then
      (atSplitGo [] line.data).map fun p => (pyStrip ⟨p.2⟩, pyStrip ⟨p.1⟩)
    else if pyContains line "," then
      (pySplitOnce line ",").map fun p => (pyStrip p.2, pyStrip p.1)
    else companyTitleLoop ls

/-- Fallback heuristics of `_extract_company_title` and
`_extract_institution_degree`: line 1 fills an entirely missing pair,
line 2 fills whichever single side is still empty. -/
def firstLinesHeuristic (lines : List String) (left right : String) : String × String :=
  if left = "" ∨ right = "" then
    let first_line := pyStrip (lines.headD "")
    if left = "" ∧ right = "" then (first_line, right)
    else if left = "" then
      if 1 < lines.length then (pyStrip (lines.getD 1 ""), right) else (left, right)
    else
      if 1 < lines.length then (left, pyStrip (lines.getD 1 "")) else (left, right)
  else (left, right)

/-- Model of `_extract_company_title`. -/
def extract_company_title (entry : String) : String × String :=
  let lines := splitLines entry
  match companyTitleLoop (lines.take 3) with
  | some (c, t) => firstLinesHeuristic lines c t
  | none => firstLinesHeuristic lines "" ""

/-- Bullet-start test: `line.startswith(('•','-','*'))` or
`re.match(r'^\d+\.', line)` (maximal digits then a dot). -/
def digitDotStart (s : List Char) : Bool :=
  let ds := s.takeWhile Char.isDigit
  decide (ds ≠ []) && decide ((s.drop ds.length).head? = some '.')

/-- Bullet or numbered-list start test on a stripped line. -/
def bulletStart (line : String) : Bool :=
  match line.data with
  | [] => false
  | c :: _ => c = '•' || c = '-' || c = '*' || digitDotStart line.data

/-- Model of `re.sub(r'^[•\-*]\s*|^\d+\.\s*', '', line)`: remove one
leading marker (anchored, so at most one substitution happens). -/
def stripBulletMarker (s : List Char) : List Char :=
  match s with
  | [] => []
  | c :: rest =>
    if c = '•' ∨ c = '-' ∨ c = '*' then rest.dropWhile pyWS
    else if digitDotStart s then
      let ds := s.takeWhile Char.isDigit
      ((s.drop ds.length).drop 1).dropWhile pyWS
    else s

/-- Model of `_extract_description_responsibilities`: skip the first
`min(3, len(lines))` lines; bullet lines become responsibilities (marker
stripped, empty results dropped), other non-empty lines are space-joined
into the description. -/
def extract_description_responsibilities (entry : String) : Option String × List String :=
  let lines := splitLines entry
  let rest := lines.drop (min 3 lines.length)
  let step : List String × List String → String → List String × List String := fun acc l =>
    let line := pyStrip l
    if bulletStart line then
      let resp := pyStrip ⟨stripBulletMarker line.data⟩
      if resp ≠ "" then (acc.1, acc.2 ++ [resp]) else acc
    else if line ≠ "" then (acc.1 ++ [line], acc.2) else acc
  let res := rest.foldl step ([], [])
  (if res.1 ≠ [] then some (pyJoin " " res.1) else none, res.2)

/-- Degree keywords of `_extract_institution_degree`. -/
def degreeKeywords : List String :=
  ["Bachelor", "Master", "PhD", "Doctorate", "Associate", "BS", "BA", "MS", "MA",
   "BSc", "MSc", "BBA", "MBA", "B.S.", "M.S.", "B.A.", "M.A.", "Ph.D.", "B.Tech",
   "M.Tech", "B.E.", "M.E.", "Certificate", "Diploma"]

/-- Keyword fallback: first raw line containing a degree keyword, stripped. -/
def degreeKeywordLine : List String → Option String
  | [] => none
  | l :: ls =>
    if degreeKeywords.any (fun kw => pyContains l kw) then some (pyStrip l)
    else degreeKeywordLine ls

/-- Model of `_extract_institution_degree`: the same delimiter loop and
line heuristics with institution on the left, plus the degree-keyword
scan when the degree is still empty. -/
def extract_institution_degree (entry : String) : String × String :=
  let lines := splitLines entry
  let p :=
    match companyTitleLoop (lines.take 3) with
    | some (inst, deg) => firstLinesHeuristic lines inst deg
    | none => firstLinesHeuristic lines "" ""
  if p.2 = "" then
    match degreeKeywordLine lines with
    | some d => (p.1, d)
    | none => p
  else p

/-- Anchored match of `kw\s+([A-Za-z\s]+)` (`kw` is `in` or `of`): the
group class contains whitespace, so when the post-whitespace class run is
empty the `\s+` backtracks once and the group captures the last
whitespace character (requires at least two whitespace characters). -/
def fieldPatAt (kw : List Char) (s : List Char) : Option (List Char) :=
  if isPreL kw s then
    let r := s.drop kw.length
    let ws := r.takeWhile pyWS
    if ws = [] then none
    else
      let g := (r.drop ws.length).takeWhile fun c => isAsciiAlpha c || pyWS c
      if g ≠ [] then some g
      else if 2 ≤ ws.length then some [' '] else none
  else none

/-- The backtracked single-whitespace group is whatever whitespace
character stood last in the run; its stripped form is empty either way,
so the model uses a space. -/
def fieldIndicators : List String :=
  ["Major:", "Field:", "Concentration:", "Specialization:"]

/-- Indicator scan of `_extract_field_of_study` over the lines after the
skip window. -/
def fieldIndicatorLoop : List String → Option String
  | [] => none
  | l :: ls =>
    let line := pyStrip l
    match fieldIndicators.find? (fun ind => pyContains line ind) with
    | some ind => (pySplitOnce line ind).map fun p => pyStrip p.2
    | none => fieldIndicatorLoop ls

/-- Model of `_extract_field_of_study`. -/
def extract_field_of_study (entry : String) (degree : String) : Option String :=
  match scanFirstOpt (fieldPatAt "in".data) degree.data with
  | some g => some (pyStrip ⟨g⟩)
  | none =>
    match scanFirstOpt (fieldPatAt "of".data) degree.data with
    | some g => some (pyStrip ⟨g⟩)
    | none =>
      let lines := splitLines entry
      fieldIndicatorLoop (lines.drop (min 3 lines.length))

/-- Parse `\d+\.\d+` (both digit runs maximal). -/
def pFloat (s : List Char) : Option (List Char × List Char) :=
  let d1 := s.takeWhile Char.isDigit
  if d1 = [] then none
  else
    match s.drop d1.length with
    | '.' :: r =>
      let d2 := r.takeWhile Char.isDigit
      if d2 = [] then none else some (d1 ++ '.' :: d2, r.drop d2.length)
    | _ => none

/-- Numeric value of a digit run. -/
def digitsToNat (ds : List Char) : Nat :=
  ds.foldl (fun n c => 10 * n + (c.toNat - '0'.toNat)) 0

/-- Exact value of the matched float literal `d1.d2`. -/
def floatChars (g : List Char) : ℚ :=
  let d1 := g.takeWhile Char.isDigit
  let d2 := (g.drop (d1.length + 1)).takeWhile Char.isDigit
  (digitsToNat d1 : ℚ) + (digitsToNat d2 : ℚ) / ((10 : ℚ) ^ d2.length)

/-- Anchored match of `GPA:\s*(\d+\.\d+)`. -/
def gpaPat1At (s : List Char) : Option (List Char) :=
  if isPreL "GPA:".data s then (pFloat ((s.drop 4).dropWhile pyWS)).map (·.1) else none

/-- Anchored match of `GPA\s+of\s+(\d+\.\d+)`. -/
def gpaPat2At (s : List Char) : Option (List Char) :=
  if isPreL "GPA".data s then
    let r := s.drop 3
    let ws1 := r.takeWhile pyWS
    if ws1 = [] then none
    else if isPreL "of".data (r.drop ws1.length) then
      let r2 := (r.drop ws1.length).drop 2
      let ws2 := r2.takeWhile pyWS
      if ws2 = [] then none else (pFloat (r2.drop ws2.length)).map (·.1)
    else none
  else none

/-- Anchored match of `(\d+\.\d+)\s+GPA`. -/
def gpaPat3At (s : List Char) : Option (List Char) :=
  match pFloat s with
  | none => none
  | some (g, r) =>
    let ws := r.takeWhile pyWS
    if ws = [] then none
    else if isPreL "GPA".data (r.drop ws.length) then some g else none

/-- Model of `_extract_gpa`: first pattern match, converted exactly. -/
def extract_gpa (entry : String) : Option ℚ :=
  match scanFirstOpt gpaPat1At entry.data with
  | some g => some (floatChars g)
  | none =>
    match scanFirstOpt gpaPat2At entry.data with
    | some g => some (floatChars g)
    | none => (scanFirstOpt gpaPat3At entry.data).map floatChars

/-- Indicator set skipped by `_extract_education_description`. -/
def eduDescSkip : List String :=
  ["GPA:", "Major:", "Field:", "Concentration:", "Specialization:"]

/-- Model of `_extract_education_description`. -/
def extract_education_description (entry : String) : Option String :=
  let lines := splitLines entry
  let rest := lines.drop (min 3 lines.length)
  let keep := rest.filterMap fun l =>
    let line := pyStrip l
    if eduDescSkip.any (fun ind => pyContains line ind) then none
    else if bulletStart line then none
    else if line ≠ "" then some line else none
  if keep ≠ [] then some (pyJoin " " keep) else none

/-- Anchored entry-start test
`re.match(r'\d{4}|\d{2}/\d{2}|\d{2}-\d{2}|[A-Z][a-z]+\s[A-Z][a-z]+', line)`. -/
def entryStartMatch (s : List Char) : Bool :=
  (pDigits 4 s).isSome
  || (match pDigits 2 s with
      | some (_, '/' :: r) => (pDigits 2 r).isSome
      | _ => false)
  || (match pDigits 2 s with
      | some (_, '-' :: r) => (pDigits 2 r).isSome
      | _ => false)
  || (match pCapWord s with
      | some (_, c :: r) => pyWS c && (pCapWord r).isSome
      | _ => false)

/-- Line loop of split pattern 2: a line matching the entry-start regex
closes the open entry; otherwise it accumulates. -/
def splitP2Go (entries : List String) (current : List String) : List String → List String
  | [] => if current ≠ [] then entries ++ [pyJoin "\n" current] else entries
  | l :: ls =>
    if entryStartMatch (pyStrip l).data ∧ current ≠ [] then
      splitP2Go (entries ++ [pyJoin "\n" current]) [l] ls
    else splitP2Go entries (current ++ [l]) ls

/-- Model of `_split_section_into_entries`: blank-line split, else the
entry-start line scan, else the whole section as one entry. -/
def split_section_into_entries (sec : String) : List String :=
  let e1 : List String :=
    if pyContains sec "\n\n" then
      (pySplit sec "\n\n").filterMap fun p =>
        let t := pyStrip p
        if t = "" then none else some t
    else []
  let e2 := if e1 = [] then splitP2Go [] [] (splitLines sec) else e1
  if e2 = [] then [sec] else e2

/-- Per-entry record builder of `extract_experience`: no record when the
company resolves to the empty string (the loop `continue`). -/
def mkExperienceRec (entry : String) : Option ExperienceRec :=
  let ct := extract_company_title entry
  if ct.1 = "" then none
  else
    let dates := extract_dates entry
    let dr := extract_description_responsibilities entry
    some { company := ct.1, title := ct.2, start_date := dates.1, end_date := dates.2,
           location := extract_location entry, description := dr.1,
           responsibilities := dr.2 }

/-- Model of `extract_experience`. -/
def extract_experience (r : Resume) : Resume :=
  match extract_section r.raw_text experienceHeaders with
  | none => r
  | some sec =>
    if sec = "" then r
    else { r with experience :=
            r.experience ++ (split_section_into_entries sec).filterMap mkExperienceRec }

/-- Per-entry record builder of `extract_education`: no record when the
institution resolves to the empty string. -/
def mkEducationRec (entry : String) : Option EducationRec :=
  let id := extract_institution_degree entry
  if id.1 = "" then none
  else
    let dates := extract_dates entry
    some { institution := id.1, degree := id.2,
           field := extract_field_of_study entry id.2,
           start_date := dates.1, end_date := dates.2,
           gpa := extract_gpa entry,
           location := extract_location entry,
           description := extract_education_description entry }

/-- Model of `extract_education`. -/
def extract_education (r : Resume) : Resume :=
  match extract_section r.raw_text educationHeaders with
  | none => r
  | some sec =>
    if sec = "" then r
    else { r with education :=
            r.education ++ (split_section_into_entries sec).filterMap mkEducationRec }

/-- Per-entry quality contribution of `_score_experience`. -/
def expQuality (e : ExperienceRec) : ℚ :=
  (if e.responsibilities ≠ [] then 0.5 * min 1 ((e.responsibilities.length : ℚ) / 3) else 0)
  + (if optTruthy e.description ∧ 50 < ((e.description.getD "").length) then 0.5 else 0)
  + (if optTruthy e.start_date ∧ optTruthy e.end_date then 0.5 else 0)
  + (if optTruthy e.location then 0.25 else 0)

/-- Model of `_score_experience` as a function of the experience list. -/
def scoreExperienceEA (exps : List ExperienceRec) : ℚ :=
  if exps = [] then 0
  else min 5 (exps.length : ℚ) + min 5 (exps.map expQuality).sum

/-- Per-entry quality contribution of `_score_education`. -/
def eduQuality (e : EducationRec) : ℚ :=
  (if e.degree ≠ "" then 1 else 0)
  + (if optTruthy e.field then 1 else 0)
  + (if optTruthy e.start_date ∧ optTruthy e.end_date then 0.5 else 0)
  + (if optQTruthy e.gpa then 1 else 0)
  + (if optTruthy e.description then 0.5 else 0)

/-- Model of `_score_education` as a function of the education list. -/
def scoreEducationEA (edus : List EducationRec) : ℚ :=
  if edus = [] then 0
  else min 5 ((edus.length : ℚ) * 2.5) + min 5 (edus.map eduQuality).sum

/-- Per-experience recommendation step of
`_add_experience_education_recommendations`. -/
def expRecStep (r : Resume) (exp : ExperienceRec) : Resume :=
  let r :=
    if exp.responsibilities = [] then
      addRecommendation r ("Add bullet points describing your responsibilities and achievements at " ++ exp.company ++ ".")
    else if exp.responsibilities.length < 3 then
      addRecommendation r ("Add more bullet points for your role at " ++ exp.company ++ " to highlight your achievements.")
    else r
  if ¬ optTruthy exp.start_date ∨ ¬ optTruthy exp.end_date then
    addRecommendation r ("Add specific dates for your position at " ++ exp.company ++ ".")
  else r

/-- Per-education recommendation step. -/
def eduRecStep (r : Resume) (edu : EducationRec) : Resume :=
  let r :=
    if ¬ optTruthy edu.field then
      addRecommendation r ("Specify your field of study at " ++ edu.institution ++ ".")
    else r
  let r :=
    if ¬ optTruthy edu.start_date ∨ ¬ optTruthy edu.end_date then
      addRecommendation r ("Add specific dates for your education at " ++ edu.institution ++ ".")
    else r
  if ¬ optQTruthy edu.gpa ∧ edu.degree ≠ "" ∧
      (["Bachelor", "Master", "PhD"].any fun kw => pyContains edu.degree kw) then
    addRecommendation r ("Consider adding your GPA for your " ++ edu.degree ++ " if it\x27s above 3.0.")
  else r

/-- Experience-count stanza of
`_add_experience_education_recommendations`. -/
def expCountBlock (r : Resume) : Resume :=
  if r.experience = [] then
    addRecommendation r "Add work experience to your resume, even if it\x27s internships or volunteer work."
  else if r.experience.length < 2 then
    addRecommendation r "Consider adding more work experiences to demonstrate your career progression."
  else r

/-- Per-experience loop stanza. -/
def expLoopBlock (r : Resume) : Resume := List.foldl expRecStep r r.experience

/-- Missing-education stanza. -/
def eduEmptyBlock (r : Resume) : Resume :=
  if r.education = [] then
    addRecommendation r "Add your educational background to your resume."
  else r

/-- Per-education loop stanza. -/
def eduLoopBlock (r : Resume) : Resume := List.foldl eduRecStep r r.education

/-- Overall-score stanza. -/
def overallBlock (r : Resume) : Resume :=
  if r.overall_score < 5 then
    addRecommendation r "Your resume needs significant improvement. Focus on adding more detailed work experiences and skills."
  else if r.overall_score < 7 then
    addRecommendation r "Your resume is good but could be improved. Consider adding more specific achievements and quantifiable results."
  else
    addRecommendation r "Your resume is strong. Consider tailoring it further for specific job applications."

/-- Model of `_add_experience_education_recommendations`: its five
stanzas in source order. -/
def addExpEduRecommendations (r : Resume) : Resume :=
  overallBlock (eduLoopBlock (eduEmptyBlock (expLoopBlock (expCountBlock r))))

/-- Model of `score_experience_education`: stores both section scores and
the overall score `0.5*experience + 0.3*education +
0.2*sum(skill_scores.values())`, then appends recommendations. -/
def score_experience_education (r : Resume) : Resume :=
  let e := scoreExperienceEA r.experience
  let d := scoreEducationEA r.education
  let r := { r with experience_score := e, education_score := d,
                    overall_score := 0.5 * e + 0.3 * d + 0.2 * catSum r.skill_scores }
  addExpEduRecommendations r

/-- Model of `experience_analyzer.analyze`. -/
def analyze (r : Resume) : Resume :=
  score_experience_education (extract_education (extract_experience r))


end ExperienceAnalyzer

/-- The full per-resume analysis pipeline of `main.analyze_resume` /
`dashboard.process_resume`: content, skills, then experience analysis on
a fresh `Resume` built from the input text. -/
def analyzeText (text : String) : Resume :=
  ExperienceAnalyzer.analyze (SkillsAnalyzer.analyze (ContentAnalyzer.analyze
    { raw_text := text, filename := "resume.txt" }))


namespace TextUtils

/-- Helper for `wordRuns`: single pass with the current run accumulated
in reverse. -/
def wordRunsAux : List Char → List Char → List (List Char)
  | cur, [] => if cur = [] then [] else [cur.reverse]
  | cur, c :: rest =>
    if isWordChar c then wordRunsAux (c :: cur) rest
    else if cur = [] then wordRunsAux [] rest
    else cur.reverse :: wordRunsAux [] rest

/-- The matches of `re.findall(r'\b\w+\b', text)`: the maximal
word-character runs in order (the word boundaries hold automatically at
the edges of maximal runs). -/
def wordRuns (s : List Char) : List (List Char) := wordRunsAux [] s

/-- The fields of the `calculate_text_stats` dictionary used by the
embedded scorers (the sentence and average-length statistics are read by
no modelled code path). -/
structure TextStats where
  word_count : ℕ
  char_count : ℕ
  unique_word_count : ℕ
  lexical_diversity : ℚ
deriving DecidableEq, Repr

/-- Model of `text_utils.calculate_text_stats`. -/
def calculate_text_stats (s : String) : TextStats :=
  let words := wordRuns s.data
  let wc := words.length
  let uniq := ((words.map lowerStr).dedup).length
  { word_count := wc
    char_count := s.data.length
    unique_word_count := uniq
    lexical_diversity := (uniq : ℚ) / (max 1 wc : ℚ) }

end TextUtils

namespace Scoring

/-- Model of `scoring.score_skills`. -/
def score_skills (r : Resume) : ℚ :=
  if r.skills = [] then 0
  else
    let n := r.skills.length
    let base : ℚ :=
      if 15 ≤ n then 5 else if 10 ≤ n then 4 else if 7 ≤ n then 3
      else if 5 ≤ n then 2 else if 3 ≤ n then 1 else 0
    let rel : ℚ :=
      if r.skill_scores.isSome then
        min 5 (catSum r.skill_scores / (max 1 (catLen r.skill_scores) : ℚ))
      else 2.5
    min 10 (base + rel)

/-- The `datetime.now()` moment, passed explicitly. -/
structure NowDate where
  year : ℤ
  month : ℤ
deriving DecidableEq, Repr

/-- Lowercase month abbreviations for `%b` (strptime matches the month
names case-insensitively). -/
def monthAbbrevs : List String :=
  ["jan", "feb", "mar", "apr", "may", "jun", "jul", "aug", "sep", "oct", "nov", "dec"]

/-- Lowercase full month names for `%B`. -/
def monthFulls : List String :=
  ["january", "february", "march", "april", "may", "june", "july", "august",
   "september", "october", "november", "december"]

/-- Numeric value of a digit run (local copy for this namespace). -/
def digitsVal (ds : List Char) : ℤ := ((ExperienceAnalyzer.digitsToNat ds : ℕ) : ℤ)

/-- Parse strptime `%Y` at the end of the input: exactly four digits
consuming the whole remainder. -/
def pY4End (s : List Char) : Option ℤ :=
  match ExperienceAnalyzer.pDigits 4 s with
  | some (ds, []) => some (digitsVal ds)
  | _ => none

/-- Parse `"%b %Y"` / `"%B %Y"`: a month name (case-insensitive), at
least one whitespace character (strptime turns a format-string space into
`\s+`), then `%Y` consuming the rest. -/
def parseNameY4 (names : List String) (s : List Char) : Option (ℤ × ℤ) :=
  let ls := lowerStr s
  match names.findIdx? (fun nm => isPreL nm.data ls) with
  | none => none
  | some i =>
    let nm := names.getD i ""
    let rest := s.drop nm.length
    let ws := rest.takeWhile pyWS
    if ws = [] then none
    else (pY4End (rest.drop ws.length)).map fun y => (y, (i : ℤ) + 1)

/-- Parse strptime `%m`: the regex alternation `1[0-2]|0[1-9]|[1-9]`, in
that order. -/
def pMonthNum : List Char → Option (ℤ × List Char)
  | [] => none
  | c :: rest =>
    match rest with
    | c2 :: r2 =>
      if c = '1' ∧ ('0' ≤ c2 ∧ c2 ≤ '2') then some (10 + ((c2.toNat : ℤ) - 48), r2)
      else if c = '0' ∧ ('1' ≤ c2 ∧ c2 ≤ '9') then some ((c2.toNat : ℤ) - 48, r2)
      else if '1' ≤ c ∧ c ≤ '9' then some ((c.toNat : ℤ) - 48, rest)
      else none
    | [] => if '1' ≤ c ∧ c ≤ '9' then some ((c.toNat : ℤ) - 48, []) else none

/-- Parse `"%m/%Y"` or `"%m-%Y"`. -/
def parseMY (sep : Char) (s : List Char) : Option (ℤ × ℤ) :=
  match pMonthNum s with
  | some (m, c :: r) => if c = sep then (pY4End r).map fun y => (y, m) else none
  | _ => none

/-- Parse `"%Y"` alone (strptime defaults the month to January). -/
def parseYOnly (s : List Char) : Option (ℤ × ℤ) :=
  (pY4End s).map fun y => (y, 1)

/-- The `strptime` format fallback chain
`['%b %Y', '%B %Y', '%m/%Y', '%m-%Y', '%Y']`: first format that parses
the whole string wins; returns `(year, month)`. -/
def parseDateFmts (s : String) : Option (ℤ × ℤ) :=
  match parseNameY4 monthAbbrevs s.data with
  | some r => some r
  | none =>
  match parseNameY4 monthFulls s.data with
  | some r => some r
  | none =>
  match parseMY '/' s.data with
  | some r => some r
  | none =>
  match parseMY '-' s.data with
  | some r => some r
  | none => parseYOnly s.data

/-- Per-record contribution to the `total_months` accumulator of
`score_experience`: month difference clamped at zero for parsed ranges,
now-based difference for `Present` ranges, 12 months when either date is
missing, and 0 (the `continue`) when no format parses a date. -/
def tenureContribution (now : NowDate) (e : ExperienceRec) : ℤ :=
  if optTruthy e.start_date ∧ optTruthy e.end_date then
    if pyLower (e.end_date.getD "") ≠ "present" then
      match parseDateFmts (e.start_date.getD "") with
      | none => 0
      | some (sy, sm) =>
        match parseDateFmts (e.end_date.getD "") with
        | none => 0
        | some (ey, em) => max 0 ((ey - sy) * 12 + (em - sm))
    else
      match parseDateFmts (e.start_date.getD "") with
      | none => 0
      | some (sy, sm) => max 0 ((now.year - sy) * 12 + (now.month - sm))
  else 12

/-- The `total_months` accumulator. -/
def totalMonths (now : NowDate) (exps : List ExperienceRec) : ℤ :=
  (exps.map (tenureContribution now)).sum

/-- Model of `scoring.score_experience`. -/
def score_experience (now : NowDate) (r : Resume) : ℚ :=
  if r.experience = [] then 0
  else
    let n := r.experience.length
    let base : ℚ :=
      if 4 ≤ n then 3 else if 3 ≤ n then 2.5 else if 2 ≤ n then 2
      else if 1 ≤ n then 1 else 0
    let tm := totalMonths now r.experience
    let dur : ℚ :=
      if 60 ≤ tm then 3 else if 36 ≤ tm then 2.5 else if 24 ≤ tm then 2
      else if 12 ≤ tm then 1.5 else if 0 < tm then 1 else 0
    let hasResp := r.experience.any fun e => e.responsibilities ≠ []
    let hasDesc := r.experience.any fun e => optTruthy e.description
    let rd : ℚ := if hasResp ∧ hasDesc then 2 else if hasResp ∨ hasDesc then 1 else 0
    let hasTitles := r.experience.all fun e => e.title ≠ ""
    let hasComps := r.experience.all fun e => e.company ≠ ""
    let tc : ℚ := if hasTitles ∧ hasComps then 2 else if hasTitles ∨ hasComps then 1 else 0
    min 10 (base + dur + rd + tc)

/-- Degree-level buckets of `score_education`; the lowered degree is
tested against the literal expansions of the alternation regexes
(`ph\.?d|doct?or|doctorate` expands to `phd`, `ph.d`, `docor`, `doctor`;
`doctorate` contains `doctor` and needs no own literal). -/
def degreeLevel (degree : String) : ℚ :=
  let d := pyLower degree
  if ["phd", "ph.d", "docor", "doctor"].any (fun k => pyContains d k) then 4
  else if ["master", "ms", "ma", "mba", "m.s", "m.a"].any (fun k => pyContains d k) then 3
  else if ["bachelor", "bs", "ba", "b.s", "b.a"].any (fun k => pyContains d k) then 2
  else if ["associate", "certificate", "diploma"].any (fun k => pyContains d k) then 1
  else 0.5

/-- Per-entry completeness of `score_education` (capped at 3 points). -/
def eduCompleteness (e : EducationRec) : ℚ :=
  min 3 ((if e.institution ≠ "" then 0.5 else 0)
    + (if optTruthy e.field then 0.5 else 0)
    + (if optTruthy e.start_date ∨ optTruthy e.end_date then 0.5 else 0)
    + (if optQTruthy e.gpa then 0.5 else 0)
    + (if optTruthy e.location then 0.5 else 0)
    + (if optTruthy e.description then 0.5 else 0))

/-- Model of `scoring.score_education`. -/
def score_education (r : Resume) : ℚ :=
  if r.education = [] then 0
  else
    let n := r.education.length
    let base : ℚ := if 3 ≤ n then 3 else if 2 ≤ n then 2 else 1
    let highest := (r.education.map fun e => degreeLevel e.degree).foldl max 0
    let avg := (r.education.map eduCompleteness).sum / (n : ℚ)
    min 10 (base + highest + min 3 avg)

/-- Model of `scoring.score_format`. -/
def score_format (r : Resume) : ℚ :=
  let contact : ℚ := (if optTruthy r.name then 0.5 else 0)
    + (if optTruthy r.email then 0.5 else 0)
    + (if optTruthy r.phone then 0.5 else 0)
    + (if optTruthy r.location then 0.5 else 0)
  let s : ℚ := 5 + min 2 contact + (if optTruthy r.summary then 1 else 0)
  let s := s +
    (if r.raw_text ≠ "" then
      let st := TextUtils.calculate_text_stats r.raw_text
      let wc := st.word_count
      (if 300 ≤ wc ∧ wc ≤ 700 then 1
       else if (200 ≤ wc ∧ wc < 300) ∨ (700 < wc ∧ wc ≤ 1000) then 0.5 else 0)
      + (let ld := st.lexical_diversity
         if 0.4 ≤ ld ∧ ld ≤ 0.7 then 1
         else if (0.3 ≤ ld ∧ ld < 0.4) ∨ (0.7 < ld ∧ ld ≤ 0.8) then 0.5 else 0)
    else 0)
  min 10 s

/-- Round half to even (Python `round` on the exact rational model). -/
def roundHalfEven (q : ℚ) : ℤ :=
  let f := ⌊q⌋
  let r := q - f
  if r < 1 / 2 then f
  else if 1 / 2 < r then f + 1
  else if Even f then f else f + 1

/-- Model of `round(x, 1)`. -/
def round1 (q : ℚ) : ℚ := (roundHalfEven (10 * q) : ℚ) / 10

/-- The weighted sum of `score_resume` before rounding. -/
def weightedOverall (now : NowDate) (r : Resume) : ℚ :=
  score_skills r * 0.3 + score_experience now r * 0.4
    + score_education r * 0.2 + score_format r * 0.1

/-- Model of `scoring.score_resume`: the weighted component sum rounded
to one decimal (this is the value stored into `overall_score` by that
function and returned to the dashboard). -/
def score_resume (now : NowDate) (r : Resume) : ℚ := round1 (weightedOverall now r)

end Scoring

namespace ATS

/-- Technical ATS keywords (`ats_keywords[`technical`]`). -/
def atsTechnicalKeywords : List String :=
  ["python", "javascript", "java", "c++", "sql", "html", "css", "react", "angular", "vue", "node.js", "django", "flask", "spring", "aws", "azure", "gcp", "docker", "kubernetes", "git", "jenkins", "ci/cd", "agile", "scrum", "api", "rest", "graphql", "microservices", "machine learning", "ai", "data science", "analytics", "database", "postgresql", "mongodb", "redis", "elasticsearch", "kafka", "rabbitmq", "terraform", "ansible", "linux", "unix"]

/-- Soft-skill ATS keywords. -/
def atsSoftKeywords : List String :=
  ["leadership", "communication", "teamwork", "collaboration", "problem solving", "critical thinking", "adaptability", "time management", "project management", "mentoring", "training", "presentation", "negotiation", "customer service", "analytical", "creative", "innovative", "detail oriented", "self motivated"]

/-- Industry ATS keywords. -/
def atsIndustryKeywords : List String :=
  ["fintech", "healthcare", "e-commerce", "saas", "startup", "enterprise", "cybersecurity", "devops", "cloud computing", "mobile development", "web development", "full stack", "frontend", "backend", "database administration"]

/-- ATS red-flag phrases. -/
def ats_red_flags : List String :=
  ["objective", "references available upon request", "hobbies", "personal interests", "marital status", "age", "date of birth", "photo", "picture"]

/-- Action verbs of `_calculate_content_score`. -/
def actionVerbs : List String :=
  ["achieved", "developed", "implemented", "managed", "led", "created", "designed", "improved", "increased", "reduced", "optimized", "delivered", "executed", "coordinated", "facilitated", "established", "built", "launched", "streamlined"]


/-- Count of list entries occurring as substrings of the lowered text. -/
def countContains (kws : List String) (textLower : String) : ℕ :=
  (kws.filter fun kw => pyContains textLower kw).length

/-- Model of `_calculate_keyword_score`. -/
def keyword_score (r : Resume) : ℚ :=
  if r.raw_text = "" then 0
  else
    let t := pyLower r.raw_text
    let tech := min 5 (((countContains atsTechnicalKeywords t : ℚ) / (atsTechnicalKeywords.length : ℚ)) * 5)
    let soft := min 3 (((countContains atsSoftKeywords t : ℚ) / (atsSoftKeywords.length : ℚ)) * 3)
    let ind := min 2 (((countContains atsIndustryKeywords t : ℚ) / (atsIndustryKeywords.length : ℚ)) * 2)
    min 10 (tech + soft + ind)

/-- Section headers checked by `_calculate_format_score`. -/
def sectionHeaders5 : List String :=
  ["experience", "education", "skills", "summary", "objective"]

/-- Occurrence of `\b\d{4}\b` (the 4-digit run is exact, so the failing
trailing boundary admits no backtracking). -/
def year4At (prev : Option Char) (s : List Char) : Bool :=
  bdryOk prev (s.headD ' ') &&
  (match ExperienceAnalyzer.pDigits 4 s with
   | some (_, r) =>
     match r.head? with
     | none => true
     | some x => !isWordChar x
   | none => false)

/-- Occurrence of the month-year pattern
`\b(Jan|...|Dec)[a-z]*\s+\d{4}\b` under IGNORECASE (the class `[a-z]`
also matches uppercase letters under that flag). -/
def monthYearAt (prev : Option Char) (s : List Char) : Bool :=
  bdryOk prev (s.headD ' ') &&
  (Scoring.monthAbbrevs.any fun nm => isPreL nm.data (lowerStr s)) &&
  (let r1 := (s.drop 3).dropWhile isAsciiAlpha
   let ws := r1.takeWhile pyWS
   decide (ws ≠ []) &&
   (match ExperienceAnalyzer.pDigits 4 (r1.drop ws.length) with
    | some (_, r) =>
      match r.head? with
      | none => true
      | some x => !isWordChar x
    | none => false))

/-- Occurrence of `\b\d{1,2}/\d{4}\b` (when the greedy two-digit month
parse survives to a failing trailing boundary, the one-digit alternative
dies at the slash, so no further backtracking exists). -/
def mmSlashYearAt (prev : Option Char) (s : List Char) : Bool :=
  bdryOk prev (s.headD ' ') &&
  (match ExperienceAnalyzer.pMMsepYYYY '/' s with
   | some (_, r) =>
     match r.head? with
     | none => true
     | some x => !isWordChar x
   | none => false)

/-- Position scan with previous-character context. -/
def anyPosWithPrev (f : Option Char → List Char → Bool) : Option Char → List Char → Bool
  | prev, [] => f prev []
  | prev, c :: rest => f prev (c :: rest) || anyPosWithPrev f (some c) rest

/-- The `dates_found > 0` test of `_calculate_format_score`. -/
def datesFound (text : String) : Bool :=
  anyPosWithPrev year4At none text.data
  || anyPosWithPrev monthYearAt none text.data
  || anyPosWithPrev mmSlashYearAt none text.data

/-- Model of `_calculate_format_score`. -/
def format_score (r : Resume) : ℚ :=
  let s : ℚ := 2
  let s := s +
    (if r.raw_text ≠ "" then
      let wc := (TextUtils.calculate_text_stats r.raw_text).word_count
      if 300 ≤ wc ∧ wc ≤ 700 then 3
      else if 200 ≤ wc ∧ wc < 300 then 2
      else if 700 < wc ∧ wc ≤ 1000 then 2
      else 1
    else 0)
  let headersFound := (sectionHeaders5.filter fun h => pyContains (pyLower r.raw_text) h).length
  let s := s + min 3 (((headersFound : ℚ) / (sectionHeaders5.length : ℚ)) * 3)
  let s := s +
    (if r.raw_text ≠ "" then
      (if pyContains r.raw_text "•" || pyContains r.raw_text "-" || pyContains r.raw_text "*" then (1 : ℚ) else 0)
      + (if datesFound r.raw_text then 1 else 0)
    else 0)
  min 10 s

/-- Model of `_calculate_structure_score`. -/
def structure_score (r : Resume) : ℚ :=
  let sections : ℕ := (if optTruthy r.name ∨ optTruthy r.email then 1 else 0)
    + (if r.experience ≠ [] then 1 else 0)
    + (if r.education ≠ [] then 1 else 0)
    + (if r.skills ≠ [] then 1 else 0)
  let s : ℚ := ((sections : ℚ) / 4) * 4
  let s := s + (if r.experience ≠ [] ∧ 1 < r.experience.length then 2 else 0)
  let s := s + (if r.experience ≠ [] ∧ (r.experience.all fun e => e.company ≠ "" ∧ e.title ≠ "") then 2 else 0)
  let s := s +
    (if r.raw_text ≠ "" ∧ 10 < ((splitLines r.raw_text).filter fun l => pyStrip l != "").length
     then 2 else 0)
  min 10 s

/-- Character class `[km]`. -/
def kmChar (c : Char) : Bool := c = 'k' || c = 'm'

/-- The quantifier pattern
`r'\b\d+%|\b\d+\+|\b\d+[km]?\+|\b\d+[km]?\b'` of
`_calculate_content_score`. -/
def quantPat (fuel : Nat) : Matcher :=
  mAlt (mChain [mBdry, mPlusFuel fuel mDigit, mChar '%'])
    (mAlt (mChain [mBdry, mPlusFuel fuel mDigit, mChar '+'])
      (mAlt (mChain [mBdry, mPlusFuel fuel mDigit, mOpt (mPred kmChar), mChar '+'])
        (mChain [mBdry, mPlusFuel fuel mDigit, mOpt (mPred kmChar), mBdry])))

/-- Model of `_calculate_content_score`. -/
def content_score (r : Resume) : ℚ :=
  let s : ℚ :=
    if r.raw_text ≠ "" then
      let q := (findallM (quantPat (r.raw_text.data.length + 1)) r.raw_text.data).length
      if 3 ≤ q then 3 else if 1 ≤ q then 1.5 else 0
    else 0
  let s := s +
    (if r.raw_text ≠ "" then
      min 3 (((countContains actionVerbs (pyLower r.raw_text) : ℚ) / (actionVerbs.length : ℚ)) * 3)
    else 0)
  let s := s + (if optTruthy r.summary ∧ 50 < (r.summary.getD "").length then 2 else 0)
  let s := s + (if r.skills ≠ [] ∧ 5 ≤ r.skills.length then 2 else 0)
  min 10 s

/-- Per-experience field completeness of `_calculate_completeness_score`. -/
def expFieldsFrac (e : ExperienceRec) : ℚ :=
  ((if e.company ≠ "" then (1 : ℚ) else 0) + (if e.title ≠ "" then 1 else 0)
    + (if optTruthy e.start_date then 1 else 0) + (if optTruthy e.end_date then 1 else 0)) / 4

/-- Per-education field completeness. -/
def eduFieldsFrac (e : EducationRec) : ℚ :=
  ((if e.institution ≠ "" then (1 : ℚ) else 0) + (if e.degree ≠ "" then 1 else 0)
    + (if optTruthy e.start_date then 1 else 0) + (if optTruthy e.end_date then 1 else 0)) / 4

/-- Model of `_calculate_completeness_score`. -/
def completeness_score (r : Resume) : ℚ :=
  let contact : ℚ := ((if optTruthy r.name then (1 : ℚ) else 0) + (if optTruthy r.email then 1 else 0)
    + (if optTruthy r.phone then 1 else 0) + (if optTruthy r.location then 1 else 0)) / 4
  let s := contact * 2
  let s := s +
    (if r.experience ≠ [] then
      ((r.experience.map expFieldsFrac).sum / (r.experience.length : ℚ)) * 3
    else 0)
  let s := s +
    (if r.education ≠ [] then
      ((r.education.map eduFieldsFrac).sum / (r.education.length : ℚ)) * 2
    else 0)
  let s := s +
    (if r.skills ≠ [] ∧ 5 ≤ r.skills.length then (2 : ℚ)
     else if r.skills ≠ [] then 1 else 0)
  let s := s + (if optTruthy r.summary ∧ 100 < (r.summary.getD "").length then 1 else 0)
  min 10 s

/-- Model of `_identify_red_flags`. -/
def identify_red_flags (r : Resume) : List String :=
  if r.raw_text = "" then []
  else
    (ats_red_flags.filter fun f => pyContains (pyLower r.raw_text) f).map
      fun f => "Contains \x27" ++ f ++ "\x27 which may hurt ATS performance"

/-- Model of `_identify_missing_elements`. -/
def identify_missing_elements (r : Resume) : List String :=
  (if ¬ optTruthy r.name then ["Name"] else [])
  ++ (if ¬ optTruthy r.email then ["Email address"] else [])
  ++ (if ¬ optTruthy r.phone then ["Phone number"] else [])
  ++ (if ¬ optTruthy r.location then ["Location"] else [])
  ++ (if ¬ optTruthy r.summary then ["Professional summary"] else [])
  ++ (if r.skills = [] ∨ r.skills.length < 5 then ["Sufficient skills (aim for 5+ relevant skills)"] else [])
  ++ (if r.experience = [] then ["Work experience"] else [])
  ++ (if r.education = [] then ["Education section"] else [])

/-- The five ATS sub-scores (`analysis['detailed_scores']`). -/
structure AtsDetailedScores where
  keyword_score : ℚ
  format_score : ℚ
  structure_score : ℚ
  content_score : ℚ
  completeness_score : ℚ
deriving DecidableEq, Repr

/-- The detailed-score computation of `ATSAnalyzer.analyze`. -/
def detailedScores (r : Resume) : AtsDetailedScores :=
  ⟨keyword_score r, format_score r, structure_score r, content_score r, completeness_score r⟩

/-- The ATS weighted overall score (weights 0.25/0.20/0.20/0.20/0.15). -/
def atsOverall (ds : AtsDetailedScores) : ℚ :=
  ds.keyword_score * 0.25 + ds.format_score * 0.20 + ds.structure_score * 0.20
    + ds.content_score * 0.20 + ds.completeness_score * 0.15

/-- The parameterized missing-elements recommendation string. -/
def missingRecText (missing : List String) : String :=
  "Add missing elements: " ++ pyJoin ", " (missing.take 3)

/-- Model of `_generate_ats_recommendations`: seven guarded blocks in
generation order, truncated to eight entries. -/
def generate_ats_recommendations (ds : AtsDetailedScores) (red_flags missing : List String) :
    List String :=
  ((if ds.keyword_score < 6 then
      ["Add more relevant keywords from job descriptions in your field",
       "Include both technical and soft skills keywords"] else [])
  ++ (if ds.format_score < 7 then
      ["Use standard section headers (Experience, Education, Skills)",
       "Ensure consistent formatting throughout the document"] else [])
  ++ (if ds.structure_score < 7 then
      ["Organize experience in reverse chronological order",
       "Use bullet points for better readability"] else [])
  ++ (if ds.content_score < 6 then
      ["Quantify your achievements with specific numbers and percentages",
       "Use strong action verbs to describe your accomplishments"] else [])
  ++ (if ds.completeness_score < 7 then
      ["Ensure all contact information is complete and professional",
       "Add detailed descriptions for each work experience"] else [])
  ++ (if red_flags ≠ [] then
      ["Remove any personal information not relevant to the job",
       "Avoid using \x27References available upon request\x27"] else [])
  ++ (if missing ≠ [] then [missingRecText missing] else [])).take 8

/-- The ATS analysis result (`ATSAnalyzer.analyze` dictionary); the
`keyword_density` and `format_compliance` entries are referenced by no
claim and are omitted. -/
structure AtsAnalysis where
  ats_score : ℚ
  detailed_scores : AtsDetailedScores
  red_flags : List String
  missing_elements : List String
  recommendations : List String
deriving DecidableEq, Repr

/-- Model of `ATSAnalyzer.analyze`. -/
def analyze (r : Resume) : AtsAnalysis :=
  let ds := detailedScores r
  let rf := identify_red_flags r
  let miss := identify_missing_elements r
  { ats_score := atsOverall ds
    detailed_scores := ds
    red_flags := rf
    missing_elements := miss
    recommendations := generate_ats_recommendations ds rf miss }

end ATS

/-! Definitions supporting the claim statements. -/

/-- Seven-field agreement used to track the resume core through the
recommendation-appending steps (which touch only `recommendations`). -/
def SameCore (a b : Resume) : Prop :=
  a.skills = b.skills ∧ a.skill_scores = b.skill_scores ∧ a.experience = b.experience
    ∧ a.education = b.education ∧ a.experience_score = b.experience_score
    ∧ a.education_score = b.education_score ∧ a.overall_score = b.overall_score

/-- The pre-scoring pipeline state feeding `score_experience_education`. -/
def preScore (text : String) : Resume :=
  ExperienceAnalyzer.extract_education (ExperienceAnalyzer.extract_experience
    (SkillsAnalyzer.analyze (ContentAnalyzer.analyze { raw_text := text, filename := "resume.txt" })))

/-- Adjacent-newline detector: `"\n\n" in s` holds exactly when two
consecutive newline characters occur. -/
def hasDoubleNL : List Char → Bool
  | c1 :: c2 :: rest => (decide (c1 = '\n') && decide (c2 = '\n')) || hasDoubleNL (c2 :: rest)
  | _ => false

/-- The thirteen ATS recommendation strings in generation order (the
seven guarded blocks of `_generate_ats_recommendations`), the last
parameterized by the missing elements. -/
def atsRecPool (missing : List String) : List String :=
  ["Add more relevant keywords from job descriptions in your field",
   "Include both technical and soft skills keywords",
   "Use standard section headers (Experience, Education, Skills)",
   "Ensure consistent formatting throughout the document",
   "Organize experience in reverse chronological order",
   "Use bullet points for better readability",
   "Quantify your achievements with specific numbers and percentages",
   "Use strong action verbs to describe your accomplishments",
   "Ensure all contact information is complete and professional",
   "Add detailed descriptions for each work experience",
   "Remove any personal information not relevant to the job",
   "Avoid using \x27References available upon request\x27",
   ATS.missingRecText missing]

/-- The scenario input text of the specification. -/
def c2Text : String :=
  "John Smith\njohn@example.com\n555-123-4567\nSKILLS\nPython, SQL, Leadership\nEXPERIENCE\nAcme Corp - Engineer\n2020 - Present\n- Built things"

/-- The first experience record the pipeline extracts from the scenario
text. -/
def acmeRec : ExperienceRec :=
  { company := "Acme Corp", title := "Engineer" }


/-! Helper lemmas: structural invariants of the pipeline. -/

/-- Reflexivity of `SameCore`. -/
theorem sameCore_refl (r : Resume) : SameCore r r :=
  ⟨rfl, rfl, rfl, rfl, rfl, rfl, rfl⟩

/-- Transitivity of `SameCore`. -/
theorem sameCore_trans {a b c : Resume} (h₁ : SameCore a b) (h₂ : SameCore b c) : SameCore a c :=
  ⟨h₁.1.trans h₂.1, h₁.2.1.trans h₂.2.1, h₁.2.2.1.trans h₂.2.2.1,
   h₁.2.2.2.1.trans h₂.2.2.2.1, h₁.2.2.2.2.1.trans h₂.2.2.2.2.1,
   h₁.2.2.2.2.2.1.trans h₂.2.2.2.2.2.1, h₁.2.2.2.2.2.2.trans h₂.2.2.2.2.2.2⟩

/-- `add_recommendation` touches only the recommendation list. -/
theorem sameCore_addRec (r : Resume) (s : String) : SameCore (addRecommendation r s) r := by
  unfold addRecommendation
  split
  · exact sameCore_refl _
  · exact sameCore_refl _

/-- Prepending an `add_recommendation` preserves `SameCore`. -/
theorem sameCore_addRec_left {a b : Resume} (s : String) (h : SameCore a b) :
    SameCore (addRecommendation a s) b :=
  sameCore_trans (sameCore_addRec a s) h

/-- A fold of core-preserving steps preserves the core. -/
theorem sameCore_foldl {α : Type} (f : Resume → α → Resume)
    (h : ∀ r a, SameCore (f r a) r) : ∀ (l : List α) (r : Resume), SameCore (List.foldl f r l) r
  | [], r => sameCore_refl r
  | a :: l, r => sameCore_trans (sameCore_foldl f h l (f r a)) (h r a)

/-- The per-experience recommendation step preserves the core. -/
theorem sameCore_expRecStep (r : Resume) (e : ExperienceRec) :
    SameCore (ExperienceAnalyzer.expRecStep r e) r := by
  unfold ExperienceAnalyzer.expRecStep
  split
  · split
    · exact sameCore_addRec_left _ (sameCore_addRec _ _)
    · exact sameCore_addRec _ _
  · split
    · split
      · exact sameCore_addRec_left _ (sameCore_addRec _ _)
      · exact sameCore_addRec _ _
    · split
      · exact sameCore_addRec _ _
      · exact sameCore_refl _

/-- The per-education recommendation step preserves the core. -/
theorem sameCore_eduRecStep (r : Resume) (e : EducationRec) :
    SameCore (ExperienceAnalyzer.eduRecStep r e) r := by
  unfold ExperienceAnalyzer.eduRecStep
  split <;> split <;> split <;>
    first
      | exact sameCore_addRec_left _ (sameCore_addRec_left _ (sameCore_addRec _ _))
      | exact sameCore_addRec_left _ (sameCore_addRec _ _)
      | exact sameCore_addRec _ _
      | exact sameCore_refl _

/-- Composition of core-preserving transforms preserves the core. -/
theorem sameCore_comp {g f : Resume → Resume} (hg : ∀ x, SameCore (g x) x)
    (hf : ∀ x, SameCore (f x) x) : ∀ x, SameCore (g (f x)) x :=
  fun x => sameCore_trans (hg (f x)) (hf x)

/-- Each stanza of the recommendation pass preserves the core. -/
theorem sameCore_expCountBlock (r : Resume) : SameCore (ExperienceAnalyzer.expCountBlock r) r := by
  unfold ExperienceAnalyzer.expCountBlock
  split
  · exact sameCore_addRec _ _
  · split
    · exact sameCore_addRec _ _
    · exact sameCore_refl _

/-- The experience loop stanza preserves the core. -/
theorem sameCore_expLoopBlock (r : Resume) : SameCore (ExperienceAnalyzer.expLoopBlock r) r :=
  sameCore_foldl _ sameCore_expRecStep _ r

/-- The missing-education stanza preserves the core. -/
theorem sameCore_eduEmptyBlock (r : Resume) : SameCore (ExperienceAnalyzer.eduEmptyBlock r) r := by
  unfold ExperienceAnalyzer.eduEmptyBlock
  split
  · exact sameCore_addRec _ _
  · exact sameCore_refl _

/-- The education loop stanza preserves the core. -/
theorem sameCore_eduLoopBlock (r : Resume) : SameCore (ExperienceAnalyzer.eduLoopBlock r) r :=
  sameCore_foldl _ sameCore_eduRecStep _ r

/-- The overall-score stanza preserves the core. -/
theorem sameCore_overallBlock (r : Resume) : SameCore (ExperienceAnalyzer.overallBlock r) r := by
  unfold ExperienceAnalyzer.overallBlock
  split
  · exact sameCore_addRec _ _
  · split
    · exact sameCore_addRec _ _
    · exact sameCore_addRec _ _

/-- `_add_experience_education_recommendations` preserves the core. -/
theorem sameCore_addExpEduRecs (r : Resume) :
    SameCore (ExperienceAnalyzer.addExpEduRecommendations r) r :=
  sameCore_comp sameCore_overallBlock
    (sameCore_comp sameCore_eduLoopBlock
      (sameCore_comp sameCore_eduEmptyBlock
        (sameCore_comp sameCore_expLoopBlock sameCore_expCountBlock))) r


/-- `extract_experience` changes only the experience list. -/
theorem extract_experience_proj (r : Resume) :
    (ExperienceAnalyzer.extract_experience r).skills = r.skills
    ∧ (ExperienceAnalyzer.extract_experience r).skill_scores = r.skill_scores
    ∧ (ExperienceAnalyzer.extract_experience r).education = r.education
    ∧ (ExperienceAnalyzer.extract_experience r).raw_text = r.raw_text := by
  unfold ExperienceAnalyzer.extract_experience
  split
  · exact ⟨rfl, rfl, rfl, rfl⟩
  · split
    · exact ⟨rfl, rfl, rfl, rfl⟩
    · exact ⟨rfl, rfl, rfl, rfl⟩

/-- The experience list produced by `extract_experience` extends the
prior list by the records the entry builder accepts. -/
theorem extract_experience_experience (r : Resume) :
    ∃ entries : List String,
      (ExperienceAnalyzer.extract_experience r).experience
        = r.experience ++ entries.filterMap ExperienceAnalyzer.mkExperienceRec := by
  unfold ExperienceAnalyzer.extract_experience
  split
  · exact ⟨[], by simp⟩
  · split
    · exact ⟨[], by simp⟩
    · exact ⟨_, rfl⟩

/-- `extract_education` changes only the education list. -/
theorem extract_education_proj (r : Resume) :
    (ExperienceAnalyzer.extract_education r).skills = r.skills
    ∧ (ExperienceAnalyzer.extract_education r).skill_scores = r.skill_scores
    ∧ (ExperienceAnalyzer.extract_education r).experience = r.experience
    ∧ (ExperienceAnalyzer.extract_education r).raw_text = r.raw_text := by
  unfold ExperienceAnalyzer.extract_education
  split
  · exact ⟨rfl, rfl, rfl, rfl⟩
  · split
    · exact ⟨rfl, rfl, rfl, rfl⟩
    · exact ⟨rfl, rfl, rfl, rfl⟩

/-- The education list produced by `extract_education` extends the prior
list by the records the entry builder accepts. -/
theorem extract_education_education (r : Resume) :
    ∃ entries : List String,
      (ExperienceAnalyzer.extract_education r).education
        = r.education ++ entries.filterMap ExperienceAnalyzer.mkEducationRec := by
  unfold ExperienceAnalyzer.extract_education
  split
  · exact ⟨[], by simp⟩
  · split
    · exact ⟨[], by simp⟩
    · exact ⟨_, rfl⟩

/-- `skills_analyzer.score_skills` stores the three weighted category
scores and otherwise touches only the recommendations. -/
theorem score_skills_sameCore (r : Resume) :
    SameCore (SkillsAnalyzer.score_skills r)
      { r with skill_scores := some (CategoryScores.mk
          (SkillsAnalyzer.categoryWeighted 0.6 SkillsAnalyzer.technicalKeywords r.skills)
          (SkillsAnalyzer.categoryWeighted 0.2 SkillsAnalyzer.softKeywords r.skills)
          (SkillsAnalyzer.categoryWeighted 0.2 SkillsAnalyzer.domainKeywords r.skills)) } := by
  have h2 : ∀ (x : Resume) (s1 s2 : String) (c1 c2 : Prop) (_ : Decidable c1) (_ : Decidable c2),
      SameCore (if c1 then addRecommendation x s1 else if c2 then addRecommendation x s2 else x) x := by
    intro x s1 s2 c1 c2 _ _
    split
    · exact sameCore_addRec _ _
    · split
      · exact sameCore_addRec _ _
      · exact sameCore_refl _
  exact sameCore_trans (h2 _ _ _ _ _ _ _) (sameCore_trans (h2 _ _ _ _ _ _ _) (sameCore_refl _))

/-- Any fold whose steps preserve a predicate preserves it. -/
theorem foldl_preserves {α β : Type} (P : β → Prop) (f : β → α → β)
    (h : ∀ b a, P b → P (f b a)) : ∀ (l : List α) (b : β), P b → P (List.foldl f b l)
  | [], _, hb => hb
  | a :: l, b, hb => foldl_preserves P f h l (f b a) (h b a hb)

/-- The found-skill list models a Python set: it is duplicate-free. -/
theorem foundSkills_nodup (r : Resume) (d : List (String × List String)) :
    (SkillsAnalyzer.foundSkills r d).Nodup := by
  unfold SkillsAnalyzer.foundSkills
  have h1 : (d.foldl (fun acc kv => kv.2.foldl (fun acc skill =>
      if wordPatternFound (pyLower skill) (pyLower r.raw_text) then acc.insert skill else acc) acc)
      ([] : List String)).Nodup := by
    refine foldl_preserves List.Nodup _ ?_ d [] List.nodup_nil
    intro b kv hb
    refine foldl_preserves List.Nodup _ ?_ kv.2 b hb
    intro b2 a hb2
    split
    · exact hb2.insert
    · exact hb2
  split
  · exact h1
  · split
    · split
      · refine foldl_preserves List.Nodup _ ?_ _ _ h1
        intro b tok hb
        simp only []
        split
        · exact hb.insert
        · exact hb
      · exact h1
    · exact h1

/-- `extract_skills` stores a sorted duplicate-free list and changes
nothing else. -/
theorem extract_skills_proj (r : Resume) (d : List (String × List String)) :
    (SkillsAnalyzer.extract_skills r d).skill_scores = r.skill_scores
    ∧ (SkillsAnalyzer.extract_skills r d).experience = r.experience
    ∧ (SkillsAnalyzer.extract_skills r d).education = r.education
    ∧ (SkillsAnalyzer.extract_skills r d).raw_text = r.raw_text
    ∧ ∃ l : List String, l.Nodup ∧ (SkillsAnalyzer.extract_skills r d).skills
        = @List.insertionSort String (· ≤ ·) strLeDecidable l :=
  ⟨rfl, rfl, rfl, rfl, ⟨_, foundSkills_nodup r d, rfl⟩⟩

/-- `content_analyzer.analyze` touches only contact fields and the
summary. -/
theorem content_analyze_proj (r : Resume) :
    (ContentAnalyzer.analyze r).skills = r.skills
    ∧ (ContentAnalyzer.analyze r).skill_scores = r.skill_scores
    ∧ (ContentAnalyzer.analyze r).experience = r.experience
    ∧ (ContentAnalyzer.analyze r).education = r.education
    ∧ (ContentAnalyzer.analyze r).raw_text = r.raw_text := by
  unfold ContentAnalyzer.analyze ContentAnalyzer.extract_summary
  simp only []
  split
  · exact ⟨rfl, rfl, rfl, rfl, rfl⟩
  · split
    · exact ⟨rfl, rfl, rfl, rfl, rfl⟩
    · exact ⟨rfl, rfl, rfl, rfl, rfl⟩

/-- `score_experience_education` stores the two section scores and the
weighted overall, then only appends recommendations. -/
theorem score_experience_education_sameCore (r : Resume) :
    SameCore (ExperienceAnalyzer.score_experience_education r)
      { r with experience_score := ExperienceAnalyzer.scoreExperienceEA r.experience,
               education_score := ExperienceAnalyzer.scoreEducationEA r.education,
               overall_score := 0.5 * ExperienceAnalyzer.scoreExperienceEA r.experience
                 + 0.3 * ExperienceAnalyzer.scoreEducationEA r.education
                 + 0.2 * catSum r.skill_scores } :=
  sameCore_addExpEduRecs _

/-- The analyzed resume agrees with `preScore` on the collections and the
skill scores, and carries the computed section and overall scores. -/
theorem analyzeText_eq_core (text : String) :
    (analyzeText text).skills = (preScore text).skills
    ∧ (analyzeText text).skill_scores = (preScore text).skill_scores
    ∧ (analyzeText text).experience = (preScore text).experience
    ∧ (analyzeText text).education = (preScore text).education
    ∧ (analyzeText text).experience_score
        = ExperienceAnalyzer.scoreExperienceEA (preScore text).experience
    ∧ (analyzeText text).education_score
        = ExperienceAnalyzer.scoreEducationEA (preScore text).education
    ∧ (analyzeText text).overall_score
        = 0.5 * ExperienceAnalyzer.scoreExperienceEA (preScore text).experience
          + 0.3 * ExperienceAnalyzer.scoreEducationEA (preScore text).education
          + 0.2 * catSum (preScore text).skill_scores := by
  have h := score_experience_education_sameCore (preScore text)
  obtain ⟨h1, h2, h3, h4, h5, h6, h7⟩ := h
  exact ⟨h1, h2, h3, h4, h5, h6, h7⟩


/-! Helper lemmas: score bounds. -/

/-- Nonnegativity of a two-branch conditional. -/
theorem ite_nonneg {c : Prop} [Decidable c] {a b : ℚ} (ha : 0 ≤ a) (hb : 0 ≤ b) :
    0 ≤ if c then a else b := by
  split
  · exact ha
  · exact hb

/-- A clamp `min 10 s` of a nonnegative value lies in `[0, 10]`. -/
theorem min10_bounds {s : ℚ} (h : 0 ≤ s) : 0 ≤ min 10 s ∧ min 10 s ≤ 10 :=
  ⟨le_min (by norm_num) h, min_le_left _ _⟩

/-- Sum of a mapped list of nonnegative contributions is nonnegative. -/
theorem mapped_sum_nonneg {α : Type} (f : α → ℚ) (h : ∀ a, 0 ≤ f a) (l : List α) :
    0 ≤ (l.map f).sum := by
  apply List.sum_nonneg
  intro x hx
  obtain ⟨a, _, rfl⟩ := List.mem_map.mp hx
  exact h a

/-- The initial value bounds a `foldl max` from below. -/
theorem le_foldl_max (l : List ℚ) : ∀ a : ℚ, a ≤ l.foldl max a := by
  induction l with
  | nil => intro a; exact le_refl a
  | cons x xs ih => intro a; exact le_trans (le_max_left a x) (ih (max a x))

/-- The per-experience quality contribution is nonnegative. -/
theorem expQuality_nonneg (e : ExperienceRec) : 0 ≤ ExperienceAnalyzer.expQuality e := by
  unfold ExperienceAnalyzer.expQuality
  have h1 : (0 : ℚ) ≤ 0.5 * min 1 ((e.responsibilities.length : ℚ) / 3) :=
    mul_nonneg (by norm_num) (le_min (by norm_num) (by positivity))
  refine add_nonneg (add_nonneg (add_nonneg ?_ ?_) ?_) ?_
  · exact ite_nonneg h1 le_rfl
  · exact ite_nonneg (by norm_num) le_rfl
  · exact ite_nonneg (by norm_num) le_rfl
  · exact ite_nonneg (by norm_num) le_rfl

/-- `_score_experience` lies in `[0, 10]` for every experience list. -/
theorem scoreExperienceEA_bounds (l : List ExperienceRec) :
    0 ≤ ExperienceAnalyzer.scoreExperienceEA l ∧ ExperienceAnalyzer.scoreExperienceEA l ≤ 10 := by
  unfold ExperienceAnalyzer.scoreExperienceEA
  split
  · norm_num
  · constructor
    · exact add_nonneg (le_min (by norm_num) (by positivity))
        (le_min (by norm_num) (mapped_sum_nonneg _ expQuality_nonneg l))
    · calc min 5 (l.length : ℚ) + min 5 (l.map ExperienceAnalyzer.expQuality).sum
          ≤ 5 + 5 := add_le_add (min_le_left _ _) (min_le_left _ _)
        _ ≤ 10 := by norm_num

/-- The per-education quality contribution is nonnegative. -/
theorem eduQuality_nonneg (e : EducationRec) : 0 ≤ ExperienceAnalyzer.eduQuality e := by
  unfold ExperienceAnalyzer.eduQuality
  refine add_nonneg (add_nonneg (add_nonneg (add_nonneg ?_ ?_) ?_) ?_) ?_ <;>
    exact ite_nonneg (by norm_num) le_rfl

/-- `_score_education` lies in `[0, 10]` for every education list. -/
theorem scoreEducationEA_bounds (l : List EducationRec) :
    0 ≤ ExperienceAnalyzer.scoreEducationEA l ∧ ExperienceAnalyzer.scoreEducationEA l ≤ 10 := by
  unfold ExperienceAnalyzer.scoreEducationEA
  split
  · norm_num
  · constructor
    · exact add_nonneg (le_min (by norm_num) (by positivity))
        (le_min (by norm_num) (mapped_sum_nonneg _ eduQuality_nonneg l))
    · calc min 5 ((l.length : ℚ) * 2.5) + min 5 (l.map ExperienceAnalyzer.eduQuality).sum
          ≤ 5 + 5 := add_le_add (min_le_left _ _) (min_le_left _ _)
        _ ≤ 10 := by norm_num

/-- Each weighted skill-category score lies in `[0, 10 * weight]`. -/
theorem categoryWeighted_bounds (w : ℚ) (kws skills : List String) (hw : 0 ≤ w) :
    0 ≤ SkillsAnalyzer.categoryWeighted w kws skills
    ∧ SkillsAnalyzer.categoryWeighted w kws skills ≤ 10 * w := by
  unfold SkillsAnalyzer.categoryWeighted SkillsAnalyzer.categoryRawScore
  constructor
  · exact mul_nonneg (le_min (by norm_num) (by positivity)) hw
  · exact mul_le_mul_of_nonneg_right (min_le_left _ _) hw


/-- `scoring.score_skills` lies in `[0, 10]` whenever the stored
category-score sum is nonnegative (as the pipeline guarantees). -/
theorem score_skills_bounds (r : Resume) (h : 0 ≤ catSum r.skill_scores) :
    0 ≤ Scoring.score_skills r ∧ Scoring.score_skills r ≤ 10 := by
  unfold Scoring.score_skills
  simp only []
  split
  · norm_num
  · refine min10_bounds (add_nonneg ?_ ?_)
    · exact ite_nonneg (by norm_num) (ite_nonneg (by norm_num) (ite_nonneg (by norm_num)
        (ite_nonneg (by norm_num) (ite_nonneg (by norm_num) le_rfl))))
    · exact ite_nonneg (le_min (by norm_num) (div_nonneg h (by positivity))) (by norm_num)

/-- `scoring.score_experience` lies in `[0, 10]` for every resume and
every current date. -/
theorem score_experience_bounds (now : Scoring.NowDate) (r : Resume) :
    0 ≤ Scoring.score_experience now r ∧ Scoring.score_experience now r ≤ 10 := by
  unfold Scoring.score_experience
  simp only []
  split
  · norm_num
  · refine min10_bounds (add_nonneg (add_nonneg (add_nonneg ?_ ?_) ?_) ?_)
    · exact ite_nonneg (by norm_num) (ite_nonneg (by norm_num) (ite_nonneg (by norm_num)
        (ite_nonneg (by norm_num) le_rfl)))
    · exact ite_nonneg (by norm_num) (ite_nonneg (by norm_num) (ite_nonneg (by norm_num)
        (ite_nonneg (by norm_num) (ite_nonneg (by norm_num) le_rfl))))
    · exact ite_nonneg (by norm_num) (ite_nonneg (by norm_num) le_rfl)
    · exact ite_nonneg (by norm_num) (ite_nonneg (by norm_num) le_rfl)

/-- The per-entry education completeness is nonnegative. -/
theorem eduCompleteness_nonneg (e : EducationRec) : 0 ≤ Scoring.eduCompleteness e := by
  unfold Scoring.eduCompleteness
  refine le_min (by norm_num) ?_
  refine add_nonneg (add_nonneg (add_nonneg (add_nonneg (add_nonneg ?_ ?_) ?_) ?_) ?_) ?_ <;>
    exact ite_nonneg (by norm_num) le_rfl

/-- `scoring.score_education` lies in `[0, 10]` for every resume. -/
theorem score_education_bounds (r : Resume) :
    0 ≤ Scoring.score_education r ∧ Scoring.score_education r ≤ 10 := by
  unfold Scoring.score_education
  simp only []
  split
  · norm_num
  · refine min10_bounds (add_nonneg (add_nonneg ?_ ?_) ?_)
    · exact ite_nonneg (by norm_num) (ite_nonneg (by norm_num) (by norm_num))
    · exact le_foldl_max _ 0
    · exact le_min (by norm_num)
        (div_nonneg (mapped_sum_nonneg _ eduCompleteness_nonneg _) (by positivity))

/-- `scoring.score_format` lies in `[0, 10]` for every resume. -/
theorem score_format_bounds (r : Resume) :
    0 ≤ Scoring.score_format r ∧ Scoring.score_format r ≤ 10 := by
  unfold Scoring.score_format
  simp only []
  refine min10_bounds (add_nonneg (add_nonneg (add_nonneg (by norm_num) ?_) ?_) ?_)
  · refine le_min (by norm_num) ?_
    refine add_nonneg (add_nonneg (add_nonneg ?_ ?_) ?_) ?_ <;>
      exact ite_nonneg (by norm_num) le_rfl
  · exact ite_nonneg (by norm_num) le_rfl
  · refine ite_nonneg (add_nonneg ?_ ?_) le_rfl
    · exact ite_nonneg (by norm_num) (ite_nonneg (by norm_num) le_rfl)
    · exact ite_nonneg (by norm_num) (ite_nonneg (by norm_num) le_rfl)

/-- The ATS keyword score lies in `[0, 10]` for every resume. -/
theorem ats_keyword_bounds (r : Resume) :
    0 ≤ ATS.keyword_score r ∧ ATS.keyword_score r ≤ 10 := by
  unfold ATS.keyword_score
  simp only []
  split
  · norm_num
  · refine min10_bounds (add_nonneg (add_nonneg ?_ ?_) ?_) <;>
      exact le_min (by norm_num) (mul_nonneg (div_nonneg (by positivity) (by positivity)) (by norm_num))

/-- The ATS format score lies in `[0, 10]` for every resume. -/
theorem ats_format_bounds (r : Resume) :
    0 ≤ ATS.format_score r ∧ ATS.format_score r ≤ 10 := by
  unfold ATS.format_score
  simp only []
  refine min10_bounds (add_nonneg (add_nonneg (add_nonneg (by norm_num) ?_) ?_) ?_)
  · exact ite_nonneg (ite_nonneg (by norm_num) (ite_nonneg (by norm_num)
      (ite_nonneg (by norm_num) (by norm_num)))) le_rfl
  · exact le_min (by norm_num) (mul_nonneg (div_nonneg (by positivity) (by positivity)) (by norm_num))
  · refine ite_nonneg (add_nonneg ?_ ?_) le_rfl <;> exact ite_nonneg (by norm_num) le_rfl

/-- The ATS structure score lies in `[0, 10]` for every resume. -/
theorem ats_structure_bounds (r : Resume) :
    0 ≤ ATS.structure_score r ∧ ATS.structure_score r ≤ 10 := by
  unfold ATS.structure_score
  simp only []
  refine min10_bounds (add_nonneg (add_nonneg (add_nonneg
    (mul_nonneg (div_nonneg (by positivity) (by norm_num)) (by norm_num)) ?_) ?_) ?_) <;>
    exact ite_nonneg (by norm_num) le_rfl

/-- The ATS content score lies in `[0, 10]` for every resume. -/
theorem ats_content_bounds (r : Resume) :
    0 ≤ ATS.content_score r ∧ ATS.content_score r ≤ 10 := by
  unfold ATS.content_score
  simp only []
  refine min10_bounds (add_nonneg (add_nonneg (add_nonneg ?_ ?_) ?_) ?_)
  · exact ite_nonneg (ite_nonneg (by norm_num) (ite_nonneg (by norm_num) le_rfl)) le_rfl
  · exact ite_nonneg (le_min (by norm_num)
      (mul_nonneg (div_nonneg (by positivity) (by positivity)) (by norm_num))) le_rfl
  · exact ite_nonneg (by norm_num) le_rfl
  · exact ite_nonneg (by norm_num) le_rfl

/-- The ATS completeness score lies in `[0, 10]` for every resume. -/
theorem ats_completeness_bounds (r : Resume) :
    0 ≤ ATS.completeness_score r ∧ ATS.completeness_score r ≤ 10 := by
  have hc : (0 : ℚ) ≤ ((if optTruthy r.name then (1 : ℚ) else 0) + (if optTruthy r.email then 1 else 0)
      + (if optTruthy r.phone then 1 else 0) + (if optTruthy r.location then 1 else 0)) / 4 := by
    refine div_nonneg ?_ (by norm_num)
    refine add_nonneg (add_nonneg (add_nonneg ?_ ?_) ?_) ?_ <;> exact ite_nonneg (by norm_num) le_rfl
  unfold ATS.completeness_score
  simp only []
  refine min10_bounds (add_nonneg (add_nonneg (add_nonneg (add_nonneg
    (mul_nonneg hc (by norm_num)) ?_) ?_) ?_) ?_)
  · refine ite_nonneg (mul_nonneg (div_nonneg ?_ (by positivity)) (by norm_num)) le_rfl
    refine mapped_sum_nonneg _ (fun e => ?_) _
    unfold ATS.expFieldsFrac
    refine div_nonneg ?_ (by norm_num)
    refine add_nonneg (add_nonneg (add_nonneg ?_ ?_) ?_) ?_ <;> exact ite_nonneg (by norm_num) le_rfl
  · refine ite_nonneg (mul_nonneg (div_nonneg ?_ (by positivity)) (by norm_num)) le_rfl
    refine mapped_sum_nonneg _ (fun e => ?_) _
    unfold ATS.eduFieldsFrac
    refine div_nonneg ?_ (by norm_num)
    refine add_nonneg (add_nonneg (add_nonneg ?_ ?_) ?_) ?_ <;> exact ite_nonneg (by norm_num) le_rfl
  · exact ite_nonneg (by norm_num) (ite_nonneg (by norm_num) le_rfl)
  · exact ite_nonneg (by norm_num) le_rfl

/-- The ATS weighted overall lies in `[0, 10]` when its five components
do. -/
theorem atsOverall_bounds (ds : ATS.AtsDetailedScores)
    (h1 : 0 ≤ ds.keyword_score ∧ ds.keyword_score ≤ 10)
    (h2 : 0 ≤ ds.format_score ∧ ds.format_score ≤ 10)
    (h3 : 0 ≤ ds.structure_score ∧ ds.structure_score ≤ 10)
    (h4 : 0 ≤ ds.content_score ∧ ds.content_score ≤ 10)
    (h5 : 0 ≤ ds.completeness_score ∧ ds.completeness_score ≤ 10) :
    0 ≤ ATS.atsOverall ds ∧ ATS.atsOverall ds ≤ 10 := by
  unfold ATS.atsOverall
  obtain ⟨a1, b1⟩ := h1
  obtain ⟨a2, b2⟩ := h2
  obtain ⟨a3, b3⟩ := h3
  obtain ⟨a4, b4⟩ := h4
  obtain ⟨a5, b5⟩ := h5
  constructor <;> nlinarith

/-- Half-to-even rounding moves a rational by at most one half. -/
theorem rhe_close (x : ℚ) : |(Scoring.roundHalfEven x : ℚ) - x| ≤ 1 / 2 := by
  have hf1 : ((⌊x⌋ : ℤ) : ℚ) ≤ x := Int.floor_le x
  have hf2 : x < ((⌊x⌋ : ℤ) : ℚ) + 1 := Int.lt_floor_add_one x
  unfold Scoring.roundHalfEven
  simp only []
  split_ifs with h1 h2 h3 <;> rw [abs_le] <;> constructor <;> push_cast at h1 ⊢ <;> linarith

/-- `round(x, 1)` moves a rational by at most `0.05`. -/
theorem round1_close (q : ℚ) : |Scoring.round1 q - q| ≤ 1 / 20 := by
  have h := rhe_close (10 * q)
  unfold Scoring.round1
  have he : (Scoring.roundHalfEven (10 * q) : ℚ) / 10 - q
      = ((Scoring.roundHalfEven (10 * q) : ℚ) - 10 * q) / 10 := by ring
  rw [he, abs_div, abs_of_pos (show (0 : ℚ) < 10 by norm_num)]
  linarith

/-- Half-to-even rounding stays within the floor/ceiling bracket. -/
theorem rhe_bracket (x : ℚ) : (⌊x⌋ : ℤ) ≤ Scoring.roundHalfEven x
    ∧ Scoring.roundHalfEven x ≤ ⌈x⌉ := by
  have hfc : (⌊x⌋ : ℤ) ≤ ⌈x⌉ := Int.floor_le_ceil x
  have hf1 : ((⌊x⌋ : ℤ) : ℚ) ≤ x := Int.floor_le x
  unfold Scoring.roundHalfEven
  simp only []
  split_ifs with h1 h2 h3
  · exact ⟨le_refl _, hfc⟩
  · refine ⟨by omega, ?_⟩
    rw [Int.add_one_le_ceil_iff]
    linarith
  · exact ⟨le_refl _, hfc⟩
  · refine ⟨by omega, ?_⟩
    rw [Int.add_one_le_ceil_iff]
    linarith

/-- `score_resume` lies in `[0, 10]` whenever the weighted sum does. -/
theorem score_resume_bounds (now : Scoring.NowDate) (r : Resume)
    (h0 : 0 ≤ Scoring.weightedOverall now r) (h10 : Scoring.weightedOverall now r ≤ 10) :
    0 ≤ Scoring.score_resume now r ∧ Scoring.score_resume now r ≤ 10 := by
  obtain ⟨hl, hr⟩ := rhe_bracket (10 * Scoring.weightedOverall now r)
  have hfl : (0 : ℤ) ≤ ⌊10 * Scoring.weightedOverall now r⌋ :=
    Int.floor_nonneg.mpr (by linarith)
  have hcl : ⌈10 * Scoring.weightedOverall now r⌉ ≤ (100 : ℤ) :=
    Int.ceil_le.mpr (by push_cast; linarith)
  unfold Scoring.score_resume Scoring.round1
  constructor
  · refine div_nonneg ?_ (by norm_num)
    exact_mod_cast le_trans hfl hl
  · rw [div_le_iff₀ (by norm_num : (0 : ℚ) < 10)]
    have : Scoring.roundHalfEven (10 * Scoring.weightedOverall now r) ≤ (100 : ℤ) :=
      le_trans hr hcl
    exact_mod_cast this


/-- The skill-score dictionary stored by `skills_analyzer.score_skills`. -/
theorem score_skills_skill_scores (r : Resume) :
    (SkillsAnalyzer.score_skills r).skill_scores = some (CategoryScores.mk
      (SkillsAnalyzer.categoryWeighted 0.6 SkillsAnalyzer.technicalKeywords r.skills)
      (SkillsAnalyzer.categoryWeighted 0.2 SkillsAnalyzer.softKeywords r.skills)
      (SkillsAnalyzer.categoryWeighted 0.2 SkillsAnalyzer.domainKeywords r.skills)) :=
  (score_skills_sameCore r).2.1

/-- The pipeline stores the three weighted category scores, bounded by
`[0, 6]`, `[0, 2]` and `[0, 2]` respectively. -/
theorem preScore_skill_scores (text : String) :
    ∃ c : CategoryScores, (preScore text).skill_scores = some c
      ∧ 0 ≤ c.technical ∧ c.technical ≤ 6 ∧ 0 ≤ c.soft ∧ c.soft ≤ 2
      ∧ 0 ≤ c.domain ∧ c.domain ≤ 2 := by
  set sk := (SkillsAnalyzer.extract_skills (ContentAnalyzer.analyze
    { raw_text := text, filename := "resume.txt" }) SkillsAnalyzer.loadSkillsData).skills with hsk
  have hbt := categoryWeighted_bounds 0.6 SkillsAnalyzer.technicalKeywords sk (by norm_num)
  have hbs := categoryWeighted_bounds 0.2 SkillsAnalyzer.softKeywords sk (by norm_num)
  have hbd := categoryWeighted_bounds 0.2 SkillsAnalyzer.domainKeywords sk (by norm_num)
  have h6 : SkillsAnalyzer.categoryWeighted 0.6 SkillsAnalyzer.technicalKeywords sk ≤ 6 := by
    calc SkillsAnalyzer.categoryWeighted 0.6 SkillsAnalyzer.technicalKeywords sk
        ≤ 10 * 0.6 := hbt.2
      _ = 6 := by norm_num
  have h2s : SkillsAnalyzer.categoryWeighted 0.2 SkillsAnalyzer.softKeywords sk ≤ 2 := by
    calc SkillsAnalyzer.categoryWeighted 0.2 SkillsAnalyzer.softKeywords sk
        ≤ 10 * 0.2 := hbs.2
      _ = 2 := by norm_num
  have h2d : SkillsAnalyzer.categoryWeighted 0.2 SkillsAnalyzer.domainKeywords sk ≤ 2 := by
    calc SkillsAnalyzer.categoryWeighted 0.2 SkillsAnalyzer.domainKeywords sk
        ≤ 10 * 0.2 := hbd.2
      _ = 2 := by norm_num
  refine ⟨CategoryScores.mk
      (SkillsAnalyzer.categoryWeighted 0.6 SkillsAnalyzer.technicalKeywords sk)
      (SkillsAnalyzer.categoryWeighted 0.2 SkillsAnalyzer.softKeywords sk)
      (SkillsAnalyzer.categoryWeighted 0.2 SkillsAnalyzer.domainKeywords sk),
    ?_, hbt.1, h6, hbs.1, h2s, hbd.1, h2d⟩
  calc (preScore text).skill_scores
      = (ExperienceAnalyzer.extract_experience (SkillsAnalyzer.analyze (ContentAnalyzer.analyze
          { raw_text := text, filename := "resume.txt" }))).skill_scores :=
        (extract_education_proj _).2.1
    _ = (SkillsAnalyzer.analyze (ContentAnalyzer.analyze
          { raw_text := text, filename := "resume.txt" })).skill_scores :=
        (extract_experience_proj _).2.1
    _ = _ := score_skills_skill_scores _

/-- The stored category-score sum of an analyzed resume lies in
`[0, 10]`. -/
theorem analyzeText_catSum_bounds (text : String) :
    0 ≤ catSum (analyzeText text).skill_scores ∧ catSum (analyzeText text).skill_scores ≤ 10 := by
  obtain ⟨c, hc, t0, t6, s0, s2, d0, d2⟩ := preScore_skill_scores text
  have h := (analyzeText_eq_core text).2.1
  rw [h, hc]
  constructor
  · show (0 : ℚ) ≤ c.technical + c.soft + c.domain
    linarith
  · show c.technical + c.soft + c.domain ≤ (10 : ℚ)
    linarith


/-! Helper lemmas for the section-extractor blank-line property. -/

/-- Pieces produced by `splitCharList` never contain the separator. -/
theorem splitCharList_no_sep (c : Char) :
    ∀ (l : List Char), ∀ p ∈ splitCharList c l, c ∉ p := by
  intro l
  induction l with
  | nil =>
    intro p hp
    simp only [splitCharList, List.mem_singleton] at hp
    subst hp
    simp
  | cons x rest ih =>
    intro p hp
    simp only [splitCharList] at hp
    split at hp
    · rcases List.mem_cons.mp hp with h | h
      · subst h
        simp
      · exact ih p h
    · next hxc =>
      cases hsp : splitCharList c rest with
      | nil =>
        rw [hsp] at hp
        simp only [List.mem_singleton] at hp
        subst hp
        simp only [List.mem_singleton]
        exact fun h => hxc h.symm
      | cons hd tl =>
        rw [hsp] at hp
        rcases List.mem_cons.mp hp with h | h
        · subst h
          intro hmem
          rcases List.mem_cons.mp hmem with h | h
          · exact hxc h.symm
          · exact ih hd (hsp ▸ List.mem_cons_self hd tl) h
        · exact ih p (hsp ▸ List.mem_cons_of_mem hd h)

/-- Prepending a non-newline character does not create a double newline. -/
theorem hasDoubleNL_cons_of_ne (a : Char) (ha : a ≠ '\n') (l : List Char) :
    hasDoubleNL (a :: l) = hasDoubleNL l := by
  cases l with
  | nil => simp [hasDoubleNL]
  | cons b r => simp [hasDoubleNL, ha]

/-- Prepending a newline-free run does not create a double newline. -/
theorem hasDoubleNL_append_of_no_nl (x : List Char) (hx : '\n' ∉ x) (t : List Char) :
    hasDoubleNL (x ++ t) = hasDoubleNL t := by
  induction x with
  | nil => rfl
  | cons a x ih =>
    have ha : a ≠ '\n' := fun h => hx (h ▸ List.mem_cons_self a x)
    have hx2 : '\n' ∉ x := fun h => hx (List.mem_cons_of_mem a h)
    rw [List.cons_append, hasDoubleNL_cons_of_ne a ha, ih hx2]

/-- A single leading newline is harmless when the rest starts off a
non-newline (or is empty). -/
theorem hasDoubleNL_nl_cons (l : List Char) (h : ∀ b, l.head? = some b → b ≠ '\n') :
    hasDoubleNL ('\n' :: l) = hasDoubleNL l := by
  cases l with
  | nil => simp [hasDoubleNL]
  | cons b r =>
    have hb : b ≠ '\n' := h b rfl
    simp [hasDoubleNL, hb]

/-- The newline-join of non-empty newline-free pieces has no double
newline. -/
theorem hasDoubleNL_joinSep (parts : List (List Char))
    (h : ∀ p ∈ parts, p ≠ [] ∧ '\n' ∉ p) :
    hasDoubleNL (joinSep ['\n'] parts) = false := by
  induction parts with
  | nil => rfl
  | cons x xs ih =>
    cases xs with
    | nil =>
      have hx := h x (List.mem_cons_self x [])
      show hasDoubleNL x = false
      calc hasDoubleNL x = hasDoubleNL (x ++ []) := by rw [List.append_nil]
        _ = hasDoubleNL [] := hasDoubleNL_append_of_no_nl x hx.2 []
        _ = false := rfl
    | cons y ys =>
      have hx := h x (List.mem_cons_self x (y :: ys))
      have hy := h y (List.mem_cons_of_mem x (List.mem_cons_self y ys))
      have hrest : ∀ p ∈ y :: ys, p ≠ [] ∧ '\n' ∉ p :=
        fun p hp => h p (List.mem_cons_of_mem x hp)
      have hjoin : joinSep ['\n'] (x :: y :: ys) = x ++ ('\n' :: joinSep ['\n'] (y :: ys)) := by
        show x ++ ['\n'] ++ joinSep ['\n'] (y :: ys) = _
        rw [List.append_assoc]
        rfl
      rw [hjoin, hasDoubleNL_append_of_no_nl x hx.2]
      have hhead : ∀ b, (joinSep ['\n'] (y :: ys)).head? = some b → b ≠ '\n' := by
        intro b hb
        have hform : ∃ tail, joinSep ['\n'] (y :: ys) = y ++ tail := by
          cases ys with
          | nil => exact ⟨[], by simp [joinSep]⟩
          | cons z zs =>
            refine ⟨'\n' :: joinSep ['\n'] (z :: zs), ?_⟩
            show y ++ ['\n'] ++ joinSep ['\n'] (z :: zs) = _
            rw [List.append_assoc]
            rfl
        obtain ⟨tail, hform⟩ := hform
        rw [hform, List.head?_append_of_ne_nil _ hy.1] at hb
        intro hbn
        subst hbn
        exact hy.2 (List.mem_of_mem_head? hb)
      rw [hasDoubleNL_nl_cons _ hhead]
      exact ih hrest

/-- `pyContains s "\n\n"` agrees with the adjacent-newline detector. -/
theorem containsSub_nn_eq_hasDoubleNL (l : List Char) :
    containsSubL ['\n', '\n'] l = hasDoubleNL l := by
  induction l with
  | nil => rfl
  | cons c rest ih =>
    cases rest with
    | nil =>
      simp only [containsSubL, isPreL, hasDoubleNL]
      cases hc : decide (c = '\n') <;> simp [hc]
    | cons c2 r2 =>
      simp only [containsSubL, isPreL, hasDoubleNL, Bool.and_true] at ih ⊢
      rw [ih, decide_eq_decide.mpr (eq_comm : ('\n' = c) ↔ c = '\n'),
        decide_eq_decide.mpr (eq_comm : ('\n' = c2) ↔ c2 = '\n')]


theorem lowerChar_digit {c : Char} (h : c.isDigit = true) : lowerChar c = c := by
  unfold lowerChar
  split
  · next hc =>
    exfalso
    simp only [Char.isDigit] at h
    rw [Bool.and_eq_true, decide_eq_true_eq, decide_eq_true_eq] at h
    obtain ⟨d1, d2⟩ := h
    obtain ⟨h1, h2⟩ := hc
    have e1 : ('A' : Char).val.toNat ≤ c.val.toNat := h1
    have e2 : c.val.toNat ≤ ('9' : Char).val.toNat := d2
    have a1 : ('A' : Char).val.toNat = 65 := by decide
    have a2 : ('9' : Char).val.toNat = 57 := by decide
    omega
  · rfl

theorem pDigits_spec : ∀ (n : Nat) (s d r : List Char),
    ExperienceAnalyzer.pDigits n s = some (d, r) →
    d.length = n ∧ ∀ c ∈ d, c.isDigit = true := by
  intro n
  induction n with
  | zero =>
    intro s d r h
    simp only [ExperienceAnalyzer.pDigits, Option.some.injEq, Prod.mk.injEq] at h
    obtain ⟨h1, h2⟩ := h
    subst h1
    simp
  | succ n ih =>
    intro s d r h
    match s with
    | [] => exact absurd h (by simp [ExperienceAnalyzer.pDigits])
    | c :: rest =>
      rw [show ExperienceAnalyzer.pDigits (n + 1) (c :: rest) =
          (if c.isDigit then
            (ExperienceAnalyzer.pDigits n rest).map fun p => (c :: p.1, p.2)
          else none) from rfl] at h
      split at h
      · next hdig =>
        cases hp : ExperienceAnalyzer.pDigits n rest with
        | none => rw [hp] at h; simp at h
        | some p =>
          obtain ⟨ds, rs⟩ := p
          rw [hp] at h
          simp only [Option.map_some', Option.some.injEq, Prod.mk.injEq] at h
          obtain ⟨h1, h2⟩ := h
          subst h1
          obtain ⟨hl, hall⟩ := ih rest ds rs hp
          refine ⟨by simp [hl], ?_⟩
          intro x hx
          rcases List.mem_cons.mp hx with rfl | hx'
          · exact hdig
          · exact hall x hx'
      · exact absurd h (by simp)

theorem pSepY4_hasDigit (sep : Char) (pre : List Char) (l : List Char) (d r : List Char)
    (h : ExperienceAnalyzer.pSepY4 sep pre l = some (d, r)) :
    ∃ c ∈ d, c.isDigit = true := by
  match l with
  | [] => exact absurd h (by simp [ExperienceAnalyzer.pSepY4])
  | c :: rest =>
    rw [show ExperienceAnalyzer.pSepY4 sep pre (c :: rest) =
        (if c = sep then
          (ExperienceAnalyzer.pDigits 4 rest).map fun p => (pre ++ c :: p.1, p.2)
        else none) from rfl] at h
    split at h
    · cases hp : ExperienceAnalyzer.pDigits 4 rest with
      | none => rw [hp] at h; simp at h
      | some p =>
        obtain ⟨ds, rs⟩ := p
        rw [hp] at h
        simp only [Option.map_some', Option.some.injEq, Prod.mk.injEq] at h
        obtain ⟨h1, h2⟩ := h
        subst h1
        obtain ⟨hl, hall⟩ := pDigits_spec 4 rest ds rs hp
        match ds, hl with
        | x :: ds', _ =>
          refine ⟨x, ?_, hall x (by simp)⟩
          exact List.mem_append.mpr (Or.inr (List.mem_cons.mpr (Or.inr (by simp))))
    · exact absurd h (by simp)

theorem pMMsepYYYY_hasDigit (sep : Char) (s : List Char) (d r : List Char)
    (h : ExperienceAnalyzer.pMMsepYYYY sep s = some (d, r)) :
    ∃ c ∈ d, c.isDigit = true := by
  unfold ExperienceAnalyzer.pMMsepYYYY at h
  split at h
  · next mm rest hp2 =>
    split at h
    · next res hsep =>
      injection h with h'
      subst h'
      exact pSepY4_hasDigit sep mm rest d r hsep
    · split at h
      · next m1 rest1 hp1 => exact pSepY4_hasDigit sep m1 rest1 d r h
      · exact absurd h (by simp)
  · split at h
    · next m1 rest1 hp1 => exact pSepY4_hasDigit sep m1 rest1 d r h
    · exact absurd h (by simp)

theorem pYYYY_hasDigit (s : List Char) (d r : List Char)
    (h : ExperienceAnalyzer.pYYYY s = some (d, r)) :
    ∃ c ∈ d, c.isDigit = true := by
  obtain ⟨hl, hall⟩ := pDigits_spec 4 s d r h
  match d, hl with
  | x :: d', _ => exact ⟨x, by simp, hall x (by simp)⟩

theorem pMonthY4_hasDigit (s : List Char) (d r : List Char)
    (h : ExperienceAnalyzer.pMonthY4 s = some (d, r)) :
    ∃ c ∈ d, c.isDigit = true := by
  match s with
  | [] => exact absurd h (by simp [ExperienceAnalyzer.pMonthY4])
  | c :: rest =>
    rw [show ExperienceAnalyzer.pMonthY4 (c :: rest) =
        (if isUpperChar c then
          let ls := rest.takeWhile ContentAnalyzer.isLowerAZ
          if ls = [] then none
          else
            let r1 := rest.drop ls.length
            let ws := r1.takeWhile pyWS
            if ws = [] then none
            else (ExperienceAnalyzer.pDigits 4 (r1.drop ws.length)).map
              fun p => (c :: ls ++ ws ++ p.1, p.2)
        else none) from rfl] at h
    simp only [] at h
    split at h
    · split at h
      · exact absurd h (by simp)
      · split at h
        · exact absurd h (by simp)
        · cases hp : ExperienceAnalyzer.pDigits 4
              ((rest.drop (rest.takeWhile ContentAnalyzer.isLowerAZ).length).drop
                ((rest.drop (rest.takeWhile ContentAnalyzer.isLowerAZ).length).takeWhile pyWS).length) with
          | none => rw [hp] at h; simp at h
          | some p =>
            obtain ⟨ds, rs⟩ := p
            rw [hp] at h
            simp only [Option.map_some', Option.some.injEq, Prod.mk.injEq] at h
            obtain ⟨h1, h2⟩ := h
            subst h1
            obtain ⟨hl, hall⟩ := pDigits_spec 4 _ ds rs hp
            match ds, hl with
            | x :: ds', _ =>
              refine ⟨x, ?_, hall x (by simp)⟩
              simp
    · exact absurd h (by simp)

theorem pEndToken_cases (pd : List Char → Option (List Char × List Char))
    (hpd : ∀ u d r, pd u = some (d, r) → ∃ c ∈ d, c.isDigit = true)
    (s t r : List Char) (h : ExperienceAnalyzer.pEndToken pd s = some (t, r)) :
    (∃ c ∈ t, c.isDigit = true) ∨ t = "Present".data ∨ t = "Current".data ∨ t = "Now".data := by
  unfold ExperienceAnalyzer.pEndToken at h
  split at h
  · next res hres =>
    injection h with h'
    exact Or.inl (hpd s t r (by rw [hres, h']))
  · split at h
    · injection h with h'
      exact Or.inr (Or.inl (congrArg Prod.fst h').symm)
    · split at h
      · injection h with h'
        exact Or.inr (Or.inr (Or.inl (congrArg Prod.fst h').symm))
      · split at h
        · injection h with h'
          exact Or.inr (Or.inr (Or.inr (congrArg Prod.fst h').symm))
        · exact absurd h (by simp)

theorem pRangeAt_g2 (p1 p2 : List Char → Option (List Char × List Char))
    (s g1 g2 : List Char) (h : ExperienceAnalyzer.pRangeAt p1 p2 s = some (g1, g2)) :
    ∃ u r, p2 u = some (g2, r) := by
  unfold ExperienceAnalyzer.pRangeAt at h
  split at h
  · exact absurd h (by simp)
  · next a r1 hp1 =>
    split at h
    · next r3 heq =>
      split at h
      · next b r4 hp2 =>
        injection h with h'
        rw [Prod.mk.injEq] at h'
        obtain ⟨h1, h2⟩ := h'
        subst h2
        exact ⟨r3.dropWhile pyWS, r4, hp2⟩
      · exact absurd h (by simp)
    · exact absurd h (by simp)

theorem scanFirstOpt_some {α : Type} (f : List Char → Option α) :
    ∀ (s : List Char) (a : α), ContentAnalyzer.scanFirstOpt f s = some a → ∃ u, f u = some a := by
  intro s
  induction s with
  | nil => intro a h; exact ⟨[], h⟩
  | cons c rest ih =>
    intro a h
    rw [show ContentAnalyzer.scanFirstOpt f (c :: rest) =
        (match f (c :: rest) with
         | some r => some r
         | none => ContentAnalyzer.scanFirstOpt f rest) from rfl] at h
    split at h
    · next r hr => exact ⟨c :: rest, by rw [hr]; exact h⟩
    · exact ih a h

theorem findDateRange_end_cases (e s t : List Char)
    (h : ExperienceAnalyzer.findDateRange e = some (s, t)) :
    (∃ c ∈ t, c.isDigit = true) ∨ t = "Present".data ∨ t = "Current".data ∨ t = "Now".data := by
  unfold ExperienceAnalyzer.findDateRange at h
  split at h
  · next r hr =>
    injection h with h'
    subst h'
    obtain ⟨u, hu⟩ := scanFirstOpt_some _ e _ hr
    obtain ⟨v, w, hv⟩ := pRangeAt_g2 _ _ u s t hu
    exact pEndToken_cases _ (fun u d r h => pMMsepYYYY_hasDigit '/' u d r h) v t w hv
  · split at h
    · next r hr =>
      injection h with h'
      subst h'
      obtain ⟨u, hu⟩ := scanFirstOpt_some _ e _ hr
      obtain ⟨v, w, hv⟩ := pRangeAt_g2 _ _ u s t hu
      exact pEndToken_cases _ (fun u d r h => pMMsepYYYY_hasDigit '-' u d r h) v t w hv
    · split at h
      · next r hr =>
        injection h with h'
        subst h'
        obtain ⟨u, hu⟩ := scanFirstOpt_some _ e _ hr
        obtain ⟨v, w, hv⟩ := pRangeAt_g2 _ _ u s t hu
        exact pEndToken_cases _ (fun u d r h => pYYYY_hasDigit u d r h) v t w hv
      · split at h
        · next r hr =>
          injection h with h'
          subst h'
          obtain ⟨u, hu⟩ := scanFirstOpt_some _ e _ hr
          obtain ⟨v, w, hv⟩ := pRangeAt_g2 _ _ u s t hu
          exact pEndToken_cases _ (fun u d r h => pMonthY4_hasDigit u d r h) v t w hv
        · obtain ⟨u, hu⟩ := scanFirstOpt_some _ e _ h
          obtain ⟨v, w, hv⟩ := pRangeAt_g2 _ _ u s t hu
          exact pEndToken_cases _ (fun u d r h => pMonthY4_hasDigit u d r h) v t w hv

theorem digit_no_lower_word (t : List Char) (hd : ∃ c ∈ t, c.isDigit = true) :
    lowerStr t ≠ "present".data ∧ lowerStr t ≠ "current".data ∧ lowerStr t ≠ "now".data := by
  obtain ⟨c, hc, hdig⟩ := hd
  have hmem : c ∈ lowerStr t := by
    have : lowerChar c ∈ lowerStr t := List.mem_map_of_mem lowerChar hc
    rwa [lowerChar_digit hdig] at this
  refine ⟨?_, ?_, ?_⟩ <;> intro he <;> rw [he] at hmem
  · have hall : ∀ x ∈ ("present".data : List Char), x.isDigit = false := by decide
    simp [hall c hmem] at hdig
  · have hall : ∀ x ∈ ("current".data : List Char), x.isDigit = false := by decide
    simp [hall c hmem] at hdig
  · have hall : ∀ x ∈ ("now".data : List Char), x.isDigit = false := by decide
    simp [hall c hmem] at hdig

/-- C5: whenever date-range extraction on an entry finds a range whose end
token lowercases to "present", "current" or "now" (i.e. is any casing of
Present/Current/Now), the extracted end date is the literal "Present". -/
theorem C5_end_token_normalizes_to_present (entry : String) (s t : List Char)
    (h : ExperienceAnalyzer.findDateRange entry.data = some (s, t))
    (hlow : lowerStr t = "present".data ∨ lowerStr t = "current".data ∨
      lowerStr t = "now".data) :
    (ExperienceAnalyzer.extract_dates entry).2 = some "Present" := by
  unfold ExperienceAnalyzer.extract_dates
  rw [h]
  rcases findDateRange_end_cases entry.data s t h with hd | ht | ht | ht
  · obtain ⟨h1, h2, h3⟩ := digit_no_lower_word t hd
    rcases hlow with he | he | he
    · exact absurd he h1
    · exact absurd he h2
    · exact absurd he h3
  · subst ht
    show some (if (⟨"Present".data⟩ : String) ∈ (["Present", "Current", "Now"] : List String)
        then "Present" else (⟨"Present".data⟩ : String)) = some "Present"
    decide
  · subst ht
    show some (if (⟨"Current".data⟩ : String) ∈ (["Present", "Current", "Now"] : List String)
        then "Present" else (⟨"Current".data⟩ : String)) = some "Present"
    decide
  · subst ht
    show some (if (⟨"Now".data⟩ : String) ∈ (["Present", "Current", "Now"] : List String)
        then "Present" else (⟨"Now".data⟩ : String)) = some "Present"
    decide

/-- Witness for C5 at the concrete entry "2020 - Present". -/
theorem C5_end_token_normalizes_to_present_witness :
    ExperienceAnalyzer.findDateRange "2020 - Present".data =
      some ("2020".data, "Present".data) ∧
    (lowerStr "Present".data = "present".data ∨
      lowerStr "Present".data = "current".data ∨ lowerStr "Present".data = "now".data) ∧
    (ExperienceAnalyzer.extract_dates "2020 - Present").2 = some "Present" :=
  ⟨by decide, Or.inl (by decide),
    C5_end_token_normalizes_to_present "2020 - Present" "2020".data "Present".data
      (by decide) (Or.inl (by decide))⟩


/-- `skills_analyzer.analyze` keeps the experience and education lists. -/
theorem skills_analyze_exp_edu (r : Resume) :
    (SkillsAnalyzer.analyze r).experience = r.experience
    ∧ (SkillsAnalyzer.analyze r).education = r.education :=
  ⟨calc (SkillsAnalyzer.analyze r).experience
      = (SkillsAnalyzer.extract_skills r SkillsAnalyzer.loadSkillsData).experience :=
        (score_skills_sameCore _).2.2.1
    _ = r.experience := (extract_skills_proj _ _).2.1,
   calc (SkillsAnalyzer.analyze r).education
      = (SkillsAnalyzer.extract_skills r SkillsAnalyzer.loadSkillsData).education :=
        (score_skills_sameCore _).2.2.2.1
    _ = r.education := (extract_skills_proj _ _).2.2.1⟩

/-- The analyzed experience list is exactly the records the entry builder
accepts over some entry list (the fresh resume starts empty). -/
theorem analyzeText_experience_filterMap (text : String) :
    ∃ entries : List String, (analyzeText text).experience
      = entries.filterMap ExperienceAnalyzer.mkExperienceRec := by
  obtain ⟨entries, he⟩ := extract_experience_experience
    (SkillsAnalyzer.analyze (ContentAnalyzer.analyze { raw_text := text, filename := "resume.txt" }))
  refine ⟨entries, ?_⟩
  calc (analyzeText text).experience
      = (preScore text).experience := (analyzeText_eq_core text).2.2.1
    _ = (ExperienceAnalyzer.extract_experience (SkillsAnalyzer.analyze (ContentAnalyzer.analyze
        { raw_text := text, filename := "resume.txt" }))).experience :=
        (extract_education_proj _).2.2.1
    _ = (SkillsAnalyzer.analyze (ContentAnalyzer.analyze
        { raw_text := text, filename := "resume.txt" })).experience
        ++ entries.filterMap ExperienceAnalyzer.mkExperienceRec := he
    _ = entries.filterMap ExperienceAnalyzer.mkExperienceRec := by
        rw [(skills_analyze_exp_edu _).1, (content_analyze_proj _).2.2.1]
        exact List.nil_append _

/-- The analyzed education list is exactly the records the entry builder
accepts over some entry list. -/
theorem analyzeText_education_filterMap (text : String) :
    ∃ entries : List String, (analyzeText text).education
      = entries.filterMap ExperienceAnalyzer.mkEducationRec := by
  obtain ⟨entries, he⟩ := extract_education_education
    (ExperienceAnalyzer.extract_experience (SkillsAnalyzer.analyze (ContentAnalyzer.analyze
      { raw_text := text, filename := "resume.txt" })))
  refine ⟨entries, ?_⟩
  calc (analyzeText text).education
      = (preScore text).education := (analyzeText_eq_core text).2.2.2.1
    _ = (ExperienceAnalyzer.extract_experience (SkillsAnalyzer.analyze (ContentAnalyzer.analyze
        { raw_text := text, filename := "resume.txt" }))).education
        ++ entries.filterMap ExperienceAnalyzer.mkEducationRec := he
    _ = entries.filterMap ExperienceAnalyzer.mkEducationRec := by
        rw [(extract_experience_proj _).2.2.1, (skills_analyze_exp_edu _).2,
          (content_analyze_proj _).2.2.2.1]
        exact List.nil_append _

/-- An accepted experience record has a non-empty company. -/
theorem mkExperienceRec_some_company (entry : String) (e : ExperienceRec)
    (h : ExperienceAnalyzer.mkExperienceRec entry = some e) : e.company ≠ "" := by
  unfold ExperienceAnalyzer.mkExperienceRec at h
  simp only [] at h
  split at h
  · exact absurd h (by simp)
  · next hne =>
    injection h with h'
    subst h'
    exact hne

/-- An entry whose company resolves empty yields no experience record. -/
theorem mkExperienceRec_unresolved (entry : String)
    (h : (ExperienceAnalyzer.extract_company_title entry).1 = "") :
    ExperienceAnalyzer.mkExperienceRec entry = none := by
  unfold ExperienceAnalyzer.mkExperienceRec
  simp only []
  rw [if_pos h]

/-- An accepted education record has a non-empty institution. -/
theorem mkEducationRec_some_institution (entry : String) (e : EducationRec)
    (h : ExperienceAnalyzer.mkEducationRec entry = some e) : e.institution ≠ "" := by
  unfold ExperienceAnalyzer.mkEducationRec at h
  simp only [] at h
  split at h
  · exact absurd h (by simp)
  · next hne =>
    injection h with h'
    subst h'
    exact hne

/-- An entry whose institution resolves empty yields no education
record. -/
theorem mkEducationRec_unresolved (entry : String)
    (h : (ExperienceAnalyzer.extract_institution_degree entry).1 = "") :
    ExperienceAnalyzer.mkEducationRec entry = none := by
  unfold ExperienceAnalyzer.mkEducationRec
  simp only []
  rw [if_pos h]

/-- The analyzed skills list is the ascending sort of a duplicate-free
list. -/
theorem analyzeText_skills_eq (text : String) :
    ∃ l : List String, l.Nodup ∧ (analyzeText text).skills
      = @List.insertionSort String (· ≤ ·) strLeDecidable l := by
  obtain ⟨fs, hnd, hfs⟩ := (extract_skills_proj (ContentAnalyzer.analyze
    { raw_text := text, filename := "resume.txt" }) SkillsAnalyzer.loadSkillsData).2.2.2.2
  refine ⟨fs, hnd, ?_⟩
  calc (analyzeText text).skills
      = (preScore text).skills := (analyzeText_eq_core text).1
    _ = (ExperienceAnalyzer.extract_experience (SkillsAnalyzer.analyze (ContentAnalyzer.analyze
        { raw_text := text, filename := "resume.txt" }))).skills :=
        (extract_education_proj _).1
    _ = (SkillsAnalyzer.analyze (ContentAnalyzer.analyze
        { raw_text := text, filename := "resume.txt" })).skills :=
        (extract_experience_proj _).1
    _ = (SkillsAnalyzer.extract_skills (ContentAnalyzer.analyze
        { raw_text := text, filename := "resume.txt" }) SkillsAnalyzer.loadSkillsData).skills :=
        (score_skills_sameCore _).1
    _ = @List.insertionSort String (· ≤ ·) strLeDecidable fs := hfs


/-- A string whose first 22 characters differ from "Add missing
elements: " is never the parameterized missing-elements recommendation. -/
theorem missingRec_ne (miss : List String) (s : String)
    (h : s.data.take 22 ≠ "Add missing elements: ".data) :
    ATS.missingRecText miss ≠ s := by
  intro he
  apply h
  rw [← he]
  show (("Add missing elements: " ++ pyJoin ", " (miss.take 3)).data.take 22) = _
  have hd : ("Add missing elements: " ++ pyJoin ", " (miss.take 3)).data
      = "Add missing elements: ".data ++ (pyJoin ", " (miss.take 3)).data := rfl
  rw [hd]
  have h22 : (22 : Nat) = ("Add missing elements: ".data).length := by decide
  rw [h22]
  exact List.take_left _ _

/-- The thirteen candidate ATS recommendation strings are pairwise
distinct. -/
theorem atsRecPool_nodup (miss : List String) : (atsRecPool miss).Nodup := by
  have hpool : atsRecPool miss
      = ["Add more relevant keywords from job descriptions in your field",
         "Include both technical and soft skills keywords",
         "Use standard section headers (Experience, Education, Skills)",
         "Ensure consistent formatting throughout the document",
         "Organize experience in reverse chronological order",
         "Use bullet points for better readability",
         "Quantify your achievements with specific numbers and percentages",
         "Use strong action verbs to describe your accomplishments",
         "Ensure all contact information is complete and professional",
         "Add detailed descriptions for each work experience",
         "Remove any personal information not relevant to the job",
         "Avoid using \x27References available upon request\x27"]
        ++ [ATS.missingRecText miss] := rfl
  rw [hpool]
  rw [List.nodup_append]
  refine ⟨by decide, List.nodup_singleton _, ?_⟩
  intro a ha hb
  rw [List.mem_singleton] at hb
  have hfix : ∀ s ∈ (["Add more relevant keywords from job descriptions in your field",
         "Include both technical and soft skills keywords",
         "Use standard section headers (Experience, Education, Skills)",
         "Ensure consistent formatting throughout the document",
         "Organize experience in reverse chronological order",
         "Use bullet points for better readability",
         "Quantify your achievements with specific numbers and percentages",
         "Use strong action verbs to describe your accomplishments",
         "Ensure all contact information is complete and professional",
         "Add detailed descriptions for each work experience",
         "Remove any personal information not relevant to the job",
         "Avoid using \x27References available upon request\x27"] : List String),
      s.data.take 22 ≠ "Add missing elements: ".data := by decide
  exact missingRec_ne miss a (hfix a ha) hb.symm

/-- The ATS overall stored by `ATSAnalyzer.analyze` is the weighted sum
of its detailed scores. -/
theorem ats_analyze_ats_score (r : Resume) :
    (ATS.analyze r).ats_score = ATS.atsOverall (ATS.detailedScores r) := rfl

/-- The ATS weighted overall of the five individual scores is within
[0, 10] when each of them is. -/
theorem atsOverall_bounds5 (k f s c p : ℚ) (h1 : 0 ≤ k ∧ k ≤ 10) (h2 : 0 ≤ f ∧ f ≤ 10)
    (h3 : 0 ≤ s ∧ s ≤ 10) (h4 : 0 ≤ c ∧ c ≤ 10) (h5 : 0 ≤ p ∧ p ≤ 10) :
    0 ≤ ATS.atsOverall ⟨k, f, s, c, p⟩ ∧ ATS.atsOverall ⟨k, f, s, c, p⟩ ≤ 10 :=
  atsOverall_bounds ⟨k, f, s, c, p⟩ h1 h2 h3 h4 h5

/-- The ATS recommendation list stored by `ATSAnalyzer.analyze`. -/
theorem ats_analyze_recommendations (r : Resume) :
    (ATS.analyze r).recommendations
      = ATS.generate_ats_recommendations (ATS.detailedScores r)
          (ATS.identify_red_flags r) (ATS.identify_missing_elements r) := rfl

/-- C1 (amended): the stored overall score follows the pipeline formula
`0.5*experience + 0.3*education + 0.2*(sum of category scores)`, while
the scoring module's separate `score_resume` equals the specified
`0.3/0.4/0.2/0.1` weighted sum up to its one-decimal rounding. -/
theorem C1_overall_score_formula (text : String) (now : Scoring.NowDate) :
    (analyzeText text).overall_score
      = 0.5 * (analyzeText text).experience_score
        + 0.3 * (analyzeText text).education_score
        + 0.2 * catSum (analyzeText text).skill_scores
    ∧ |Scoring.score_resume now (analyzeText text)
        - (0.3 * Scoring.score_skills (analyzeText text)
           + 0.4 * Scoring.score_experience now (analyzeText text)
           + 0.2 * Scoring.score_education (analyzeText text)
           + 0.1 * Scoring.score_format (analyzeText text))| ≤ 1/20 := by
  obtain ⟨h1, h2, h3, h4, h5, h6, h7⟩ := analyzeText_eq_core text
  constructor
  · rw [h5, h6, h2]
    exact h7
  · have hclose := round1_close (Scoring.weightedOverall now (analyzeText text))
    have he : Scoring.weightedOverall now (analyzeText text)
        = 0.3 * Scoring.score_skills (analyzeText text)
          + 0.4 * Scoring.score_experience now (analyzeText text)
          + 0.2 * Scoring.score_education (analyzeText text)
          + 0.1 * Scoring.score_format (analyzeText text) := by
      unfold Scoring.weightedOverall
      ring
    show |Scoring.round1 (Scoring.weightedOverall now (analyzeText text)) - _| ≤ 1/20
    rw [← he]
    exact hclose

set_option maxHeartbeats 1000000 in
/-- C3: every component score (the scoring module's four components, the
stored experience/education scores, the five ATS sub-scores) and every
aggregate (the stored overall, the scoring module's rounded overall, and
the ATS overall) lies in [0, 10] for every analyzed resume and any
current date. -/
theorem C3_scores_in_range (text : String) (now : Scoring.NowDate) :
    (0 ≤ Scoring.score_skills (analyzeText text)
      ∧ Scoring.score_skills (analyzeText text) ≤ 10)
    ∧ (0 ≤ Scoring.score_experience now (analyzeText text)
      ∧ Scoring.score_experience now (analyzeText text) ≤ 10)
    ∧ (0 ≤ Scoring.score_education (analyzeText text)
      ∧ Scoring.score_education (analyzeText text) ≤ 10)
    ∧ (0 ≤ Scoring.score_format (analyzeText text)
      ∧ Scoring.score_format (analyzeText text) ≤ 10)
    ∧ (0 ≤ (analyzeText text).experience_score ∧ (analyzeText text).experience_score ≤ 10)
    ∧ (0 ≤ (analyzeText text).education_score ∧ (analyzeText text).education_score ≤ 10)
    ∧ (0 ≤ (analyzeText text).overall_score ∧ (analyzeText text).overall_score ≤ 10)
    ∧ (0 ≤ Scoring.score_resume now (analyzeText text)
      ∧ Scoring.score_resume now (analyzeText text) ≤ 10)
    ∧ (0 ≤ ATS.keyword_score (analyzeText text) ∧ ATS.keyword_score (analyzeText text) ≤ 10)
    ∧ (0 ≤ ATS.format_score (analyzeText text) ∧ ATS.format_score (analyzeText text) ≤ 10)
    ∧ (0 ≤ ATS.structure_score (analyzeText text)
      ∧ ATS.structure_score (analyzeText text) ≤ 10)
    ∧ (0 ≤ ATS.content_score (analyzeText text) ∧ ATS.content_score (analyzeText text) ≤ 10)
    ∧ (0 ≤ ATS.completeness_score (analyzeText text)
      ∧ ATS.completeness_score (analyzeText text) ≤ 10)
    ∧ (0 ≤ (ATS.analyze (analyzeText text)).ats_score
      ∧ (ATS.analyze (analyzeText text)).ats_score ≤ 10) := by
  have hcat := analyzeText_catSum_bounds text
  obtain ⟨h1, h2, h3, h4, h5, h6, h7⟩ := analyzeText_eq_core text
  have hexpS := scoreExperienceEA_bounds (preScore text).experience
  have heduS := scoreEducationEA_bounds (preScore text).education
  have hsk := score_skills_bounds (analyzeText text) hcat.1
  have hexp := score_experience_bounds now (analyzeText text)
  have hedu := score_education_bounds (analyzeText text)
  have hfmt := score_format_bounds (analyzeText text)
  have hos : 0 ≤ (analyzeText text).overall_score ∧ (analyzeText text).overall_score ≤ 10 := by
    rw [h7]
    have hc2 : 0 ≤ catSum (preScore text).skill_scores
        ∧ catSum (preScore text).skill_scores ≤ 10 := by
      rw [← h2]
      exact hcat
    constructor
    · linarith [hexpS.1, heduS.1, hc2.1]
    · linarith [hexpS.2, heduS.2, hc2.2]
  have hW : 0 ≤ Scoring.weightedOverall now (analyzeText text)
      ∧ Scoring.weightedOverall now (analyzeText text) ≤ 10 := by
    unfold Scoring.weightedOverall
    constructor
    · linarith [hsk.1, hexp.1, hedu.1, hfmt.1]
    · linarith [hsk.2, hexp.2, hedu.2, hfmt.2]
  have hres := score_resume_bounds now (analyzeText text) hW.1 hW.2
  have hkw := ats_keyword_bounds (analyzeText text)
  have hfm := ats_format_bounds (analyzeText text)
  have hstr := ats_structure_bounds (analyzeText text)
  have hcon := ats_content_bounds (analyzeText text)
  have hcomp := ats_completeness_bounds (analyzeText text)
  have hats : 0 ≤ (ATS.analyze (analyzeText text)).ats_score
      ∧ (ATS.analyze (analyzeText text)).ats_score ≤ 10 := by
    have hb := atsOverall_bounds5 (ATS.keyword_score (analyzeText text))
      (ATS.format_score (analyzeText text)) (ATS.structure_score (analyzeText text))
      (ATS.content_score (analyzeText text)) (ATS.completeness_score (analyzeText text))
      hkw hfm hstr hcon hcomp
    have hds : ATS.detailedScores (analyzeText text)
        = ATS.AtsDetailedScores.mk (ATS.keyword_score (analyzeText text))
          (ATS.format_score (analyzeText text)) (ATS.structure_score (analyzeText text))
          (ATS.content_score (analyzeText text)) (ATS.completeness_score (analyzeText text)) := rfl
    rw [ats_analyze_ats_score, hds]
    exact hb
  refine ⟨hsk, hexp, hedu, hfmt, ?_, ?_, hos, hres, hkw, hfm, hstr, hcon, hcomp, hats⟩
  · rw [h5]
    exact hexpS
  · rw [h6]
    exact heduS

/-- C4: the final skills list of every analyzed resume is sorted
ascending and contains no duplicates (case-sensitive identity). -/
theorem C4_skills_sorted_nodup (text : String) :
    (analyzeText text).skills.Sorted (· ≤ ·) ∧ (analyzeText text).skills.Nodup := by
  obtain ⟨l, hnd, heq⟩ := analyzeText_skills_eq text
  rw [heq]
  constructor
  · exact @List.sorted_insertionSort String (· ≤ ·) strLeDecidable _ _ l
  · exact (@List.perm_insertionSort String (· ≤ ·) strLeDecidable l).nodup_iff.mpr hnd

/-- C7: an experience record running "Jan 2020" to "Jan 2022" adds
exactly 24 months to the tenure accumulator, whatever its other fields,
the current date, and the rest of the list. -/
theorem C7_tenure_24_months (now : Scoring.NowDate) (company title : String)
    (location description : Option String) (resp : List String)
    (rest : List ExperienceRec) :
    Scoring.tenureContribution now
      { company := company, title := title, start_date := some "Jan 2020",
        end_date := some "Jan 2022", location := location,
        description := description, responsibilities := resp } = 24
    ∧ Scoring.totalMonths now
        ({ company := company, title := title, start_date := some "Jan 2020",
           end_date := some "Jan 2022", location := location,
           description := description, responsibilities := resp } :: rest)
      = 24 + Scoring.totalMonths now rest := by
  have h24 : Scoring.tenureContribution now
      { company := company, title := title, start_date := some "Jan 2020",
        end_date := some "Jan 2022", location := location,
        description := description, responsibilities := resp } = 24 := rfl
  refine ⟨h24, ?_⟩
  show (List.map (Scoring.tenureContribution now) _).sum = _
  rw [List.map_cons, List.sum_cons, h24]
  rfl

set_option maxHeartbeats 1000000 in
/-- C8: the ATS recommendation list never exceeds eight entries, has no
duplicates, and is a subsequence of the thirteen candidate strings in
generation order. -/
theorem C8_ats_recommendations (r : Resume) :
    (ATS.analyze r).recommendations.length ≤ 8
    ∧ (ATS.analyze r).recommendations.Nodup
    ∧ (ATS.analyze r).recommendations.Sublist
        (atsRecPool (ATS.identify_missing_elements r)) := by
  rw [ats_analyze_recommendations]
  have hblock : ∀ (c : Prop) (inst : Decidable c) (l : List String),
      List.Sublist (if c then l else []) l := by
    intro c inst l
    split
    · exact List.Sublist.refl _
    · exact List.nil_sublist _
  have hsub : List.Sublist (ATS.generate_ats_recommendations (ATS.detailedScores r)
      (ATS.identify_red_flags r) (ATS.identify_missing_elements r))
      (atsRecPool (ATS.identify_missing_elements r)) := by
    refine List.Sublist.trans (List.take_sublist 8 _) ?_
    show List.Sublist (_ ++ _ ++ _ ++ _ ++ _ ++ _ ++ _)
        (["Add more relevant keywords from job descriptions in your field",
            "Include both technical and soft skills keywords"]
          ++ ["Use standard section headers (Experience, Education, Skills)",
              "Ensure consistent formatting throughout the document"]
          ++ ["Organize experience in reverse chronological order",
              "Use bullet points for better readability"]
          ++ ["Quantify your achievements with specific numbers and percentages",
              "Use strong action verbs to describe your accomplishments"]
          ++ ["Ensure all contact information is complete and professional",
              "Add detailed descriptions for each work experience"]
          ++ ["Remove any personal information not relevant to the job",
              "Avoid using \x27References available upon request\x27"]
          ++ [ATS.missingRecText (ATS.identify_missing_elements r)])
    refine List.Sublist.append (List.Sublist.append (List.Sublist.append
      (List.Sublist.append (List.Sublist.append (List.Sublist.append
        (hblock _ _ _) (hblock _ _ _)) (hblock _ _ _)) (hblock _ _ _))
      (hblock _ _ _)) (hblock _ _ _)) (hblock _ _ _)
  refine ⟨?_, hsub.nodup (atsRecPool_nodup _), hsub⟩
  exact List.length_take_le 8 _

/-- C9: every experience record of an analyzed resume has a non-empty
company and every education record a non-empty institution; an entry
whose company (resp. institution) resolves to the empty string produces
no record at all. -/
theorem C9_record_creation_invariants (text : String) :
    (∀ e ∈ (analyzeText text).experience, e.company ≠ "")
    ∧ (∀ e ∈ (analyzeText text).education, e.institution ≠ "")
    ∧ (∀ entry : String, (ExperienceAnalyzer.extract_company_title entry).1 = "" →
        ExperienceAnalyzer.mkExperienceRec entry = none)
    ∧ (∀ entry : String, (ExperienceAnalyzer.extract_institution_degree entry).1 = "" →
        ExperienceAnalyzer.mkEducationRec entry = none) := by
  refine ⟨?_, ?_, mkExperienceRec_unresolved, mkEducationRec_unresolved⟩
  · intro e he
    obtain ⟨entries, hent⟩ := analyzeText_experience_filterMap text
    rw [hent] at he
    obtain ⟨a, _, ha⟩ := List.mem_filterMap.mp he
    exact mkExperienceRec_some_company a e ha
  · intro e he
    obtain ⟨entries, hent⟩ := analyzeText_education_filterMap text
    rw [hent] at he
    obtain ⟨a, _, ha⟩ := List.mem_filterMap.mp he
    exact mkEducationRec_some_institution a e ha

/-- C10: a section body returned by the extractor never contains a blank
line, so the entry splitter's blank-line rule never applies to it: its
result is always the line-scan (or whole-body) path. -/
theorem C10_section_bodies_blank_free (text : String) (headers : List String) (body : String)
    (h : ExperienceAnalyzer.extract_section text headers = some body) :
    pyContains body "\n\n" = false
    ∧ ExperienceAnalyzer.split_section_into_entries body
        = (if ExperienceAnalyzer.splitP2Go [] [] (splitLines body) = [] then [body]
           else ExperienceAnalyzer.splitP2Go [] [] (splitLines body)) := by
  have hnb : pyContains body "\n\n" = false := by
    unfold ExperienceAnalyzer.extract_section at h
    simp only [] at h
    split at h
    · exact absurd h (by simp)
    · injection h with h'
      subst h'
      show containsSubL ("\n\n" : String).data _ = false
      rw [show ("\n\n" : String).data = ['\n', '\n'] from rfl]
      rw [containsSub_nn_eq_hasDoubleNL]
      show hasDoubleNL (joinSep "\n".data (List.map String.data _)) = false
      apply hasDoubleNL_joinSep
      intro p hp
      obtain ⟨l, hl, rfl⟩ := List.mem_map.mp hp
      have hfil := List.mem_filter.mp hl
      constructor
      · intro hnil
        have hstrip : pyStrip l = "" := by
          unfold pyStrip
          have : l.data = [] := hnil
          rw [this]
          rfl
        rw [hstrip] at hfil
        simp at hfil
      · have hmem : l ∈ splitLines text :=
          List.mem_of_mem_drop (List.mem_of_mem_take hfil.1)
        unfold splitLines at hmem
        obtain ⟨piece, hpiece, hpl⟩ := List.mem_map.mp hmem
        have := splitCharList_no_sep '\n' text.data piece hpiece
        rw [← hpl]
        exact this
  refine ⟨hnb, ?_⟩
  unfold ExperienceAnalyzer.split_section_into_entries
  simp only [hnb]
  rfl


/- `Rat.add` and friends are marked irreducible upstream, which blocks
elaborator-side evaluation of concrete pipeline runs; restore the
default reducibility for the concrete-input theorems below. -/
set_option allowUnsafeReducibility true in
attribute [semireducible] Rat.add Rat.mul Rat.inv Rat.sub Rat.div Rat.ofScientific

set_option maxRecDepth 100000 in
/-- C1 counterexample: for the one-word input "X" the pipeline stores an
overall score of 0, while the claimed weighted formula evaluates to
11/20; the two differ by far more than any rounding slack. -/
theorem C1_counterexample :
    (analyzeText "X").overall_score = 0
    ∧ 0.3 * Scoring.score_skills (analyzeText "X")
      + 0.4 * Scoring.score_experience ⟨2026, 10⟩ (analyzeText "X")
      + 0.2 * Scoring.score_education (analyzeText "X")
      + 0.1 * Scoring.score_format (analyzeText "X") = 11/20
    ∧ (analyzeText "X").overall_score ≠
        0.3 * Scoring.score_skills (analyzeText "X")
        + 0.4 * Scoring.score_experience ⟨2026, 10⟩ (analyzeText "X")
        + 0.2 * Scoring.score_education (analyzeText "X")
        + 0.1 * Scoring.score_format (analyzeText "X") := by decide

set_option maxRecDepth 100000 in
/-- C2 counterexample: the scenario text yields two experience records,
not one; the second carries company "2020" and title "Present", and no
record has responsibilities ["Built things"]. -/
theorem C2_counterexample :
    (analyzeText c2Text).experience.length ≠ 1
    ∧ (analyzeText c2Text).experience
      = [acmeRec, { company := "2020", title := "Present", start_date := some "2020",
                    end_date := some "Present" }]
    ∧ ∀ e ∈ (analyzeText c2Text).experience, e.responsibilities ≠ ["Built things"] := by decide

set_option maxRecDepth 100000 in
/-- C2 (amended): the scenario text produces the stated name, email,
phone and skills, but two experience records: the Acme record with no
dates or responsibilities, and a spurious record company="2020",
title="Present" carrying the dates. -/
theorem C2_scenario_extraction :
    (analyzeText c2Text).name = some "John Smith"
    ∧ (analyzeText c2Text).email = some "john@example.com"
    ∧ (analyzeText c2Text).phone = some "555-123-4567"
    ∧ (analyzeText c2Text).skills = ["Leadership", "Python", "SQL"]
    ∧ "Python" ∈ (analyzeText c2Text).skills
    ∧ "SQL" ∈ (analyzeText c2Text).skills
    ∧ "Leadership" ∈ (analyzeText c2Text).skills
    ∧ (analyzeText c2Text).experience
      = [acmeRec, { company := "2020", title := "Present", start_date := some "2020",
                    end_date := some "Present" }] := by decide

set_option maxRecDepth 100000 in
/-- C6: the empty input completes with every optional field unset, every
collection empty, zero scores, and a non-empty recommendations list. -/
theorem C6_empty_input :
    (analyzeText "").name = none ∧ (analyzeText "").email = none
    ∧ (analyzeText "").phone = none ∧ (analyzeText "").location = none
    ∧ (analyzeText "").linkedin = none ∧ (analyzeText "").website = none
    ∧ (analyzeText "").summary = none
    ∧ (analyzeText "").skills = [] ∧ (analyzeText "").experience = []
    ∧ (analyzeText "").education = [] ∧ (analyzeText "").projects = []
    ∧ (analyzeText "").certifications = [] ∧ (analyzeText "").languages = []
    ∧ (analyzeText "").experience_score = 0 ∧ (analyzeText "").education_score = 0
    ∧ (analyzeText "").overall_score = 0
    ∧ (analyzeText "").recommendations ≠ [] := by decide

set_option maxRecDepth 100000 in
/-- Witness for C9 at the scenario text and the empty entry. -/
theorem C9_record_creation_invariants_witness :
    acmeRec ∈ (analyzeText c2Text).experience ∧ acmeRec.company ≠ ""
    ∧ (ExperienceAnalyzer.extract_company_title "").1 = ""
    ∧ ExperienceAnalyzer.mkExperienceRec "" = none
    ∧ (ExperienceAnalyzer.extract_institution_degree "").1 = ""
    ∧ ExperienceAnalyzer.mkEducationRec "" = none :=
  ⟨by decide, (C9_record_creation_invariants c2Text).1 acmeRec (by decide),
   by decide, (C9_record_creation_invariants c2Text).2.2.1 "" (by decide),
   by decide, (C9_record_creation_invariants c2Text).2.2.2 "" (by decide)⟩

set_option maxRecDepth 100000 in
/-- Witness for C10 at the scenario text and the experience headers. -/
theorem C10_section_bodies_blank_free_witness :
    ExperienceAnalyzer.extract_section c2Text ExperienceAnalyzer.experienceHeaders
      = some "Acme Corp - Engineer\n2020 - Present\n- Built things"
    ∧ pyContains "Acme Corp - Engineer\n2020 - Present\n- Built things" "\n\n" = false :=
  ⟨by decide,
   (C10_section_bodies_blank_free c2Text ExperienceAnalyzer.experienceHeaders
     "Acme Corp - Engineer\n2020 - Present\n- Built things" (by decide)).1⟩

end ResumeAnalyzer
